import Mathlib

/-!
# Course admin panel (`assets/js/cpanal.js`): data manager, templates, validation

A shallow embedding of the pure parts of the admin panel script:

* `CourseDataManager` (`setCourses`, `filterCourses`, `findCourseById`, ...),
* `UITemplates` (`escapeHtml`, `createCourseCard`, `createEmptyState`),
* `Utils.validateCourseData`,
* the search path of `CourseAdminApp` (`handleSearch`, `renderCourses`).

Modelling conventions.

* A JavaScript string is the list of its UTF-16 code units (`JsString`), so that
  `length`, `slice` and `includes` count exactly what the script counts.
* A JavaScript number is a `JsNum`: `NaN`, the two infinities, or a finite value
  (a rational; every finite double is one, and `-0` is not told apart from `0`,
  which no operation used by the script can observe).
* Built-ins of the language whose tables are outside the script (Unicode case
  mapping, number formatting and parsing) are fields of a `Host`; every
  definition takes the host as a parameter, and general theorems hold for every
  host.  `Host.reference` is a concrete host used to evaluate examples.
* Values are JSON data (`JVal`): `null`, booleans, numbers, strings, arrays and
  plain objects, plus `undefined` for a missing property.  Plain objects have
  no member named `toString`, so that `String(v)` is defined on every value.
* A raised `TypeError` is the `none` result of an `Option`.
-/

namespace Cpanal

/-! ## Strings -/

/-- A JavaScript string: its sequence of UTF-16 code units. -/
abbrev JsString := List Nat

/-- The UTF-16 code units of one Unicode scalar value. -/
def utf16Units (c : Char) : List Nat :=
  if c.toNat < 65536 then [c.toNat]
  else [55296 + (c.toNat - 65536) / 1024, 56320 + (c.toNat - 65536) % 1024]

/-- The JavaScript string denoted by a string literal. -/
def js (s : String) : JsString := s.data.flatMap utf16Units

/-- White space and line terminators, the code units removed by
`String.prototype.trim`. -/
def isJsWhiteSpace (u : Nat) : Bool :=
  u = 9 || u = 10 || u = 11 || u = 12 || u = 13 || u = 32 || u = 160 ||
  u = 5760 || (8192 ≤ u && u ≤ 8202) || u = 8232 || u = 8233 || u = 8239 ||
  u = 8287 || u = 12288 || u = 65279

/-- The built-in `String.prototype.trim`. -/
def jsTrim (s : JsString) : JsString :=
  ((s.dropWhile isJsWhiteSpace).reverse.dropWhile isJsWhiteSpace).reverse

/-- The built-in `String.prototype.includes`: `t` occurs in `s` as a contiguous
run of code units. -/
def jsIncludes (s t : JsString) : Bool := decide (t <:+: s)

/-- Concatenation of already converted pieces with a separator, the tail of
`Array.prototype.join`. -/
def joinStrings (sep : JsString) : List JsString → JsString
  | [] => []
  | [s] => s
  | s :: rest => s ++ sep ++ joinStrings sep rest

/-! ## Numbers -/

/-- A JavaScript number. -/
inductive JsNum where
  | nan
  | negInf
  | posInf
  | fin (q : ℚ)
  deriving DecidableEq

namespace JsNum

/-- The subtraction `a - b`.  On finite operands the exact difference is
taken; rounding to a double keeps the sign, which is all the sort uses. -/
def sub : JsNum → JsNum → JsNum
  | nan, _ => nan
  | _, nan => nan
  | posInf, posInf => nan
  | negInf, negInf => nan
  | posInf, _ => posInf
  | negInf, _ => negInf
  | fin _, posInf => negInf
  | fin _, negInf => posInf
  | fin a, fin b => fin (a - b)

/-- The comparison `x > 0`. -/
def isPositive : JsNum → Bool
  | posInf => true
  | fin q => decide (0 < q)
  | _ => false

/-- The comparison `a < b` of two numbers (`false` when either is `NaN`). -/
def lt : JsNum → JsNum → Bool
  | nan, _ => false
  | _, nan => false
  | posInf, _ => false
  | _, negInf => false
  | negInf, _ => true
  | fin _, posInf => true
  | fin a, fin b => decide (a < b)

/-- Truthiness of a number: everything except `0` and `NaN`. -/
def truthy : JsNum → Bool
  | nan => false
  | fin q => decide (q ≠ 0)
  | _ => true

/-- The expression `n || 0` on a number. -/
def orZero (n : JsNum) : JsNum := if n.truthy then n else fin 0

/-- The ordering of the number line with both infinities; `NaN` is related to
nothing. -/
def le : JsNum → JsNum → Prop
  | nan, _ => False
  | _, nan => False
  | negInf, _ => True
  | _, posInf => True
  | posInf, _ => False
  | _, negInf => False
  | fin a, fin b => a ≤ b

end JsNum

/-! ## Values -/

/-- The name of a member of a plain data object.  The name `toString` is left
out: an object that carries a data member of that name has no usable string
form at all, every other object converts to `[object Object]`. -/
abbrev MemberName := { name : String // name ≠ "toString" }

/-- A JavaScript value as it arrives from `JSON.parse`, plus `undefined` for a
missing property.  An object is a plain data object given by its members. -/
inductive JVal where
  | undef
  | null
  | bool (b : Bool)
  | num (n : JsNum)
  | str (s : JsString)
  | arr (items : List JVal)
  | obj (members : List (MemberName × JVal))

/-- Built-ins of the language that the script calls and whose definition is a
table or an algorithm of the standard library. -/
structure Host where
  /-- The method `String.prototype.toLowerCase`. -/
  toLowerCase : JsString → JsString
  /-- The conversion of a number to a string (`String(n)`, template
  interpolation of a number). -/
  numberToString : JsNum → JsString
  /-- The conversion of a string to a number (`Number(s)`). -/
  stringToNumber : JsString → JsNum
  /-- The global `parseInt` applied to a string, radix left out. -/
  parseInt : JsString → JsNum
  /-- The method `Number.prototype.toFixed` with the given number of digits. -/
  toFixed : JsNum → Nat → JsString
  /-- The built-in `JSON.stringify` on a data value. -/
  jsonStringify : JVal → JsString
  /-- The message of the `TypeError` raised when a property of `null` is read. -/
  nullReadMessage : JsString
  /-- Lower-casing the empty string gives the empty string. -/
  toLowerCase_empty : toLowerCase [] = []

namespace JVal

/-- Truthiness of a value (`!!v`). -/
def truthy : JVal → Bool
  | undef => false
  | null => false
  | bool b => b
  | num n => n.truthy
  | str s => !s.isEmpty
  | arr _ => true
  | obj _ => true

/-- The test `v === undefined`. -/
def isUndef : JVal → Bool
  | undef => true
  | _ => false

/-- The test `v === null`. -/
def isNull : JVal → Bool
  | null => true
  | _ => false

/-- The test `Array.isArray(v)`. -/
def isArray : JVal → Bool
  | arr _ => true
  | _ => false

mutual
/-- The conversion `String(v)`.  An array converts as `join(",")`; a plain
object converts to `[object Object]`. -/
def toStr (H : Host) : JVal → JsString
  | undef => js "undefined"
  | null => js "null"
  | bool true => js "true"
  | bool false => js "false"
  | num n => H.numberToString n
  | str s => s
  | arr items => joinStrings (js ",") (itemStrings H items)
  | obj _ => js "[object Object]"
/-- The string each array element contributes to `join`: the empty string for
`undefined` and `null`, its string form otherwise. -/
def itemStrings (H : Host) : List JVal → List JsString
  | [] => []
  | undef :: rest => [] :: itemStrings H rest
  | null :: rest => [] :: itemStrings H rest
  | v :: rest => toStr H v :: itemStrings H rest
end

/-- The built-in `Array.prototype.join` on the elements of an array. -/
def join (H : Host) (items : List JVal) (sep : JsString) : JsString :=
  joinStrings sep (itemStrings H items)

/-- The conversion `Number(v)`. -/
def toNumber (H : Host) : JVal → JsNum
  | undef => .nan
  | null => .fin 0
  | bool true => .fin 1
  | bool false => .fin 0
  | num n => n
  | str s => H.stringToNumber s
  | v => H.stringToNumber (toStr H v)

/-- The operator `a || b`. -/
def or (a b : JVal) : JVal := if a.truthy then a else b

/-- The test `v === 0`. -/
def isZero : JVal → Bool
  | num (.fin q) => decide (q = 0)
  | _ => false

end JVal

/-! ## A reference host -/

/-- Decimal digits of a natural number, as code units. -/
def natDigits (n : Nat) : JsString := (Nat.toDigits 10 n).map Char.toNat

/-- Decimal digits of an integer, with a leading minus sign when negative. -/
def intDigits (z : Int) : JsString :=
  if z < 0 then js "-" ++ natDigits z.natAbs else natDigits z.natAbs

/-- Whether a code unit is an ASCII decimal digit. -/
def isDigit (u : Nat) : Bool := 48 ≤ u && u ≤ 57

/-- The value of a run of decimal digits. -/
def digitsValue (ds : List Nat) : Nat := ds.foldl (fun acc u => 10 * acc + (u - 48)) 0

/-- ASCII lower-casing of one code unit. -/
def asciiLower (u : Nat) : Nat := if 65 ≤ u ∧ u ≤ 90 then u + 32 else u

/-- Fixed-point rendering of a non-negative rational with `d` fraction digits,
rounding half up. -/
def fixedDigits (q : ℚ) (d : Nat) : JsString :=
  let n : Nat := (Rat.floor (q * 10 ^ d + 1 / 2)).toNat
  let ds := natDigits n
  let padded := List.replicate (d + 1 - ds.length) 48 ++ ds
  if d = 0 then padded
  else padded.take (padded.length - d) ++ js "." ++ padded.drop (padded.length - d)

/-- Reference `parseInt` on decimal input: leading white space, an optional
sign, then the longest run of decimal digits; `NaN` when there is none. -/
def refParseInt (s : JsString) : JsNum :=
  let t := s.dropWhile isJsWhiteSpace
  let neg := t.head? = some 45
  let body := if t.head? = some 45 ∨ t.head? = some 43 then t.tail else t
  let ds := body.takeWhile isDigit
  if ds.isEmpty then .nan
  else if neg then .fin (-(digitsValue ds : ℚ)) else .fin (digitsValue ds : ℚ)

/-- Reference `Number(s)` on decimal integer input: the empty or blank string
is `0`, an optionally signed run of digits is its value, anything else is
`NaN`. -/
def refStringToNumber (s : JsString) : JsNum :=
  let t := jsTrim s
  let neg := t.head? = some 45
  let body := if t.head? = some 45 ∨ t.head? = some 43 then t.tail else t
  if t.isEmpty then .fin 0
  else if body.isEmpty ∨ ¬ body.all isDigit then .nan
  else if neg then .fin (-(digitsValue body : ℚ)) else .fin (digitsValue body : ℚ)

/-- Reference number formatting: exact on integers; a value with a fraction is
shown with six fraction digits. -/
def refNumberToString : JsNum → JsString
  | .nan => js "NaN"
  | .posInf => js "Infinity"
  | .negInf => js "-Infinity"
  | .fin q =>
    if q.den = 1 then intDigits q.num
    else if q < 0 then js "-" ++ fixedDigits (-q) 6 else fixedDigits q 6

/-- Reference `toFixed`. -/
def refToFixed : JsNum → Nat → JsString
  | .nan, _ => js "NaN"
  | .posInf, _ => js "Infinity"
  | .negInf, _ => js "-Infinity"
  | .fin q, d => if q < 0 then js "-" ++ fixedDigits (-q) d else fixedDigits q d

/-- Reference JSON text of a string: quotes around it, with a backslash before
each double quote and each backslash. -/
def refJsonQuote (s : JsString) : JsString :=
  [34] ++ s.flatMap (fun u => if u = 34 ∨ u = 92 then [92, u] else [u]) ++ [34]

mutual
/-- Reference `JSON.stringify`. -/
def refJson : JVal → JsString
  | .undef => js "null"
  | .null => js "null"
  | .bool true => js "true"
  | .bool false => js "false"
  | .num (.fin q) => refNumberToString (.fin q)
  | .num _ => js "null"
  | .str s => refJsonQuote s
  | .arr items => js "[" ++ joinStrings (js ",") (refJsonItems items) ++ js "]"
  | .obj members => [123] ++ joinStrings (js ",") (refJsonMembers members) ++ [125]
/-- Reference JSON texts of the elements of an array. -/
def refJsonItems : List JVal → List JsString
  | [] => []
  | v :: rest => refJson v :: refJsonItems rest
/-- Reference JSON texts of the members of an object; a member whose value is
`undefined` is left out. -/
def refJsonMembers : List (MemberName × JVal) → List JsString
  | [] => []
  | (_, .undef) :: rest => refJsonMembers rest
  | (name, v) :: rest =>
    (refJsonQuote (js name.val) ++ js ":" ++ refJson v) :: refJsonMembers rest
end

/-- A concrete host: it agrees with the language on ASCII text and on decimal
integers in the exactly representable range, which is where the examples below
evaluate it. -/
def Host.reference : Host where
  toLowerCase := fun s => s.map asciiLower
  numberToString := refNumberToString
  stringToNumber := refStringToNumber
  parseInt := refParseInt
  toFixed := refToFixed
  jsonStringify := refJson
  nullReadMessage := js "Cannot read properties of null (reading " ++ [39] ++ js "id" ++
    [39] ++ js ")"
  toLowerCase_empty := rfl

/-! ## Configuration (`CONFIG`) -/

namespace CONFIG

/-- The setting `CONFIG.UI.MAX_DESCRIPTION_LENGTH`. -/
def MAX_DESCRIPTION_LENGTH : Nat := 80

/-- The setting `CONFIG.VALIDATION.MIN_PRICE`. -/
def MIN_PRICE : JsNum := .fin 0

/-- The setting `CONFIG.VALIDATION.MIN_STUDENTS`. -/
def MIN_STUDENTS : JsNum := .fin 0

end CONFIG

/-! ## Course records -/

/-- A course record: the properties the script reads, each `undefined` when
the object has no such property, and the remaining properties as they are. -/
structure Course where
  id : JVal := .undef
  title : JVal := .undef
  category : JVal := .undef
  instructor : JVal := .undef
  tags : JVal := .undef
  description : JVal := .undef
  price : JVal := .undef
  students : JVal := .undef
  rating : JVal := .undef
  _sheetRow : JVal := .undef
  level : JVal := .undef
  lessons : JVal := .undef
  learningObjectives : JVal := .undef
  date : JVal := .undef
  others : List (String × JVal) := []

/-! ## The data manager (`class CourseDataManager`) -/

/-- The state of a `CourseDataManager`. -/
structure CourseDataManager where
  courses : List Course
  filteredCourses : List Course
  isLoading : Bool
  isDirty : Bool

namespace CourseDataManager

/-- The `constructor`. -/
def new : CourseDataManager :=
  { courses := [], filteredCourses := [], isLoading := false, isDirty := false }

/-- The method `getAllCourses`: a copy of the full list. -/
def getAllCourses (m : CourseDataManager) : List Course := m.courses

/-- The method `getFilteredCourses`: a copy of the filtered list. -/
def getFilteredCourses (m : CourseDataManager) : List Course := m.filteredCourses

/-- The record built by the `map` callback of `setCourses`:
`id` is `c.id !== undefined ? String(c.id) : ""`, `_sheetRow` is
`Number(c._sheetRow)` when it is neither `undefined` nor `null` and `null`
otherwise, every other property is copied by the spread. -/
def normalizeCourse (H : Host) (c : Course) : Course :=
  { c with
    id := if !c.id.isUndef then .str (JVal.toStr H c.id) else .str []
    _sheetRow := if !c._sheetRow.isUndef && !c._sheetRow.isNull
      then .num (JVal.toNumber H c._sheetRow) else .null }

/-- The sort key `parseInt(a.id) || 0`. -/
def numericId (H : Host) (c : Course) : JsNum :=
  (H.parseInt (JVal.toStr H c.id)).orZero

/-- The comparator `(a, b) => (parseInt(a.id) || 0) - (parseInt(b.id) || 0)`. -/
def compareById (H : Host) (a b : Course) : JsNum :=
  (numericId H a).sub (numericId H b)

/-- The relation the sort arranges by: `a` may stay before `b` unless the
comparator result is positive. -/
def sortsBefore (H : Host) (a b : Course) : Prop :=
  (compareById H a b).isPositive = false

instance (H : Host) : DecidableRel (sortsBefore H) :=
  fun a b => inferInstanceAs (Decidable ((compareById H a b).isPositive = false))

/-- The built-in `Array.prototype.sort` with the comparator of `setCourses`.
The built-in is a stable sort, and the comparator orders records by their
numeric key, so its result is the one a stable insertion sort produces. -/
def sortById (H : Host) (l : List Course) : List Course :=
  l.insertionSort (sortsBefore H)

/-- The method `setCourses`. -/
def setCourses (H : Host) (m : CourseDataManager) (coursesData : List Course) :
    CourseDataManager :=
  let courses := sortById H (coursesData.map (normalizeCourse H))
  { m with courses := courses, filteredCourses := courses }

/-- The expression `(v || '').toLowerCase()`; `none` is the `TypeError` raised
when the operand is truthy but has no `toLowerCase` method. -/
def lowerText (H : Host) (v : JVal) : Option JsString :=
  match JVal.or v (.str []) with
  | .str s => some (H.toLowerCase s)
  | _ => none

/-- The expression
`Array.isArray(course.tags) ? course.tags.join(' ').toLowerCase() : ''`. -/
def tagsText (H : Host) (v : JVal) : JsString :=
  match v with
  | .arr items => H.toLowerCase (JVal.join H items (js " "))
  | _ => []

/-- The callback of the `filter` call in `filterCourses`. -/
def matchesTerm (H : Host) (term : JsString) (course : Course) : Option Bool := do
  let title ← lowerText H course.title
  let category ← lowerText H course.category
  let instructor ← lowerText H course.instructor
  let tags := tagsText H course.tags
  pure (jsIncludes title term || jsIncludes category term ||
    jsIncludes instructor term || jsIncludes tags term)

/-- The built-in `Array.prototype.filter` with a callback that may raise: the
first raise aborts the whole call. -/
def filterRaising (p : Course → Option Bool) : List Course → Option (List Course)
  | [] => some []
  | c :: rest => do
    let keep ← p c
    let kept ← filterRaising p rest
    pure (if keep then c :: kept else kept)

/-- The method `filterCourses`: the new state and the returned list, or `none`
when the callback raises (the state is then left as it was). -/
def filterCourses (H : Host) (m : CourseDataManager) (searchTerm : JsString) :
    Option (CourseDataManager × List Course) :=
  let term := jsTrim (H.toLowerCase searchTerm)
  if term.isEmpty then
    some ({ m with filteredCourses := m.courses }, m.courses)
  else do
    let filtered ← filterRaising (matchesTerm H term) m.courses
    pure ({ m with filteredCourses := filtered }, filtered)

/-- The method `findCourseById`; `none` is `undefined`. -/
def findCourseById (H : Host) (m : CourseDataManager) (id : JVal) : Option Course :=
  m.courses.find? (fun c => decide (JVal.toStr H c.id = JVal.toStr H id))

/-- The method `getCoursesCount`: `(total, filtered)`. -/
def getCoursesCount (m : CourseDataManager) : Nat × Nat :=
  (m.courses.length, m.filteredCourses.length)

/-- The method `setLoading`. -/
def setLoading (m : CourseDataManager) (isLoading : Bool) : CourseDataManager :=
  { m with isLoading := isLoading }

/-- The method `getLoading`. -/
def getLoading (m : CourseDataManager) : Bool := m.isLoading

/-- The method `setDirty`. -/
def setDirty (m : CourseDataManager) (isDirty : Bool) : CourseDataManager :=
  { m with isDirty := isDirty }

/-- The method `getDirty`. -/
def getDirty (m : CourseDataManager) : Bool := m.isDirty

/-! ### The search described as a predicate on records -/

/-- A field value the search can read: a string, or a falsy value (missing,
`null`, `false`, `0`, `NaN`), which is read as the empty string. -/
def isTextual (v : JVal) : Bool :=
  match v with
  | .str _ => true
  | v => !v.truthy

/-- The text of a readable field: the string itself, empty for a falsy value. -/
def fieldText (v : JVal) : JsString :=
  match v with
  | .str s => s
  | _ => []

/-- A record is found by an already lower-cased term: the term occurs in the
lower-cased title, category or instructor, or in the lower-cased tags (joined
by single spaces). -/
def containsTerm (H : Host) (term : JsString) (c : Course) : Bool :=
  jsIncludes (H.toLowerCase (fieldText c.title)) term ||
  jsIncludes (H.toLowerCase (fieldText c.category)) term ||
  jsIncludes (H.toLowerCase (fieldText c.instructor)) term ||
  jsIncludes (tagsText H c.tags) term

/-- A manager holding the single record `(id: "1", title: "a")`. -/
def searchExample : CourseDataManager :=
  { new with
    courses := [{ id := .str (js "1"), title := .str (js "a") }]
    filteredCourses := [{ id := .str (js "1"), title := .str (js "a") }] }

/-- An input list in which a record without id precedes a record whose id is
the empty string. -/
def emptyIdData : List Course :=
  [{ title := .str (js "X") }, { id := .str [], title := .str (js "Y") }]

/-- An input list with a record of id `5` and a record that has no id. -/
def mixedIdData : List Course :=
  [{ id := .num (.fin 5), title := .str (js "B") }, { title := .str (js "A") }]

end CourseDataManager

/-! ## Markup templates (`UITemplates`) -/

namespace UITemplates

/-- The replacement of one code unit by the callback of `escapeHtml`: the five
code units matched by the pattern (ampersand 38, less-than 60, greater-than 62,
double quote 34, single quote 39) go to their entity, any other code unit is
not matched and stays. -/
def escapeUnit (u : Nat) : JsString :=
  if u = 38 then js "&amp;"
  else if u = 60 then js "&lt;"
  else if u = 62 then js "&gt;"
  else if u = 34 then js "&quot;"
  else if u = 39 then js "&#39;"
  else [u]

/-- The function `escapeHtml`: the argument, the empty string when it is left
out, is converted with `String(str)` and every match of the pattern is replaced
through the entity table. -/
def escapeHtml (H : Host) (str : JVal) : JsString :=
  let s := match str with
    | .undef => []
    | v => JVal.toStr H v
  s.flatMap escapeUnit

/-- The function `createCourseCard`. -/
def createCourseCard (H : Host) (course : Course) : JsString :=
  if !course.id.truthy then []
  else
    let price := if course.price.isZero then js "Free"
      else js "$" ++ H.toFixed (JVal.toNumber H course.price).orZero 2
    let description := escapeHtml H (course.description.or (.str (js "No description")))
    let truncatedDesc := description.take CONFIG.MAX_DESCRIPTION_LENGTH
    let displayDesc := if description.length > CONFIG.MAX_DESCRIPTION_LENGTH
      then truncatedDesc ++ js "…" else truncatedDesc
    let students := course.students.or (.num (.fin 0))
    let rating := match course.rating with
      | .num n => n
      | v => (JVal.toNumber H v).orZero
    let sheetRowAttr := match course._sheetRow with
      | .undef => []
      | .null => []
      | v => js "data-sheet-row=\"" ++ JVal.toStr H v ++ js "\""
    js "\n" ++
    js "        <div class=\"col-12 col-md-6 col-lg-4\">\n" ++
    js "          <div class=\"card h-100 position-relative\" data-course-id=\"" ++
    escapeHtml H course.id ++
    js "\" " ++
    sheetRowAttr ++
    js ">\n" ++
    js "            <span class=\"badge bg-primary position-absolute top-0 start-0 m-2\" style=\"z-index:1\">ID: " ++
    escapeHtml H course.id ++
    js "</span>\n" ++
    js "            <span class=\"badge bg-secondary admin-card-badge\">" ++
    escapeHtml H (course.category.or (.str (js "Uncategorized"))) ++
    js "</span>\n" ++
    js "            <div class=\"card-body d-flex flex-column\">\n" ++
    js "              <h3 class=\"h6 card-title mt-2\">" ++
    escapeHtml H (course.title.or (.str (js "Untitled Course"))) ++
    js "</h3>\n" ++
    js "              <p class=\"small text-muted flex-grow-1\">" ++
    displayDesc ++
    js "</p>\n" ++
    js "              <div class=\"small text-muted mb-2\">\n" ++
    js "                <span class=\"me-2\">👨‍🏫 " ++
    escapeHtml H (course.instructor.or (.str (js "TBA"))) ++
    js "</span><br>\n" ++
    js "                <span class=\"me-2\">👥 " ++
    JVal.toStr H students ++
    js " students</span>\n" ++
    js "                <span>⭐ " ++
    H.toFixed rating 1 ++
    js "/5</span>\n" ++
    js "              </div>\n" ++
    js "              <div class=\"mt-auto d-flex justify-content-between align-items-center\">\n" ++
    js "                <strong class=\"text-warning\">" ++
    price ++
    js "</strong>\n" ++
    js "                <div class=\"admin-card-controls\" role=\"group\">\n" ++
    js "                  <button type=\"button\" class=\"btn btn-sm btn-outline-info\" data-action=\"edit\" data-course-id=\"" ++
    escapeHtml H course.id ++
    js "\" title=\"Edit Course\">\n" ++
    js "                    <i class=\"bi bi-pencil\"></i>\n" ++
    js "                  </button>\n" ++
    js "                  <button type=\"button\" class=\"btn btn-sm btn-outline-danger\" data-action=\"delete\" data-course-id=\"" ++
    escapeHtml H course.id ++
    js "\" title=\"Delete Course\">\n" ++
    js "                    <i class=\"bi bi-trash\"></i>\n" ++
    js "                  </button>\n" ++
    js "                </div>\n" ++
    js "              </div>\n" ++
    js "            </div>\n" ++
    js "          </div>\n" ++
    js "        </div>"

/-- The function `createEmptyState(hasSearch, searchTerm, totalCourses)`. -/
def createEmptyState (H : Host) (hasSearch : Bool) (searchTerm : JsString)
    (totalCourses : Nat) : JsString :=
  if hasSearch then
    js "\n" ++
    js "          <div class=\"col-12 text-center p-4\">\n" ++
    js "            <i class=\"bi bi-search text-muted mb-2\"></i><br>\n" ++
    js "            <span class=\"text-muted\">No courses match \"" ++
    escapeHtml H (.str searchTerm) ++
    js "\"</span>\n" ++
    js "          </div>"
  else if totalCourses = 0 then
    js "\n" ++
    js "          <div class=\"col-12 text-center p-5\">\n" ++
    js "            <i class=\"bi bi-plus-circle display-4 text-muted mb-3\"></i>\n" ++
    js "            <h4 class=\"text-muted\">No courses yet</h4>\n" ++
    js "            <p class=\"text-muted\">Click \"Add Course\" to create your first course.</p>\n" ++
    js "          </div>"
  else []

/-- The function `createErrorState`. -/
def createErrorState (H : Host) (errorMessage : JVal) : JsString :=
  js "\n" ++
  js "        <div class=\"col-12 text-center text-danger p-4\">\n" ++
  js "          <i class=\"bi bi-exclamation-triangle mb-2\"></i><br>\n" ++
  js "          <strong>Connection Error</strong><br>\n" ++
  js "          " ++
  escapeHtml H errorMessage ++
  js "\n" ++
  js "        </div>"

end UITemplates

/-! ## Utilities (`Utils`) -/

/-- The property access `courseData[field]`. -/
def Course.get (c : Course) (field : String) : JVal :=
  if field = "id" then c.id
  else if field = "title" then c.title
  else if field = "category" then c.category
  else if field = "instructor" then c.instructor
  else if field = "tags" then c.tags
  else if field = "description" then c.description
  else if field = "price" then c.price
  else if field = "students" then c.students
  else if field = "rating" then c.rating
  else if field = "_sheetRow" then c._sheetRow
  else if field = "level" then c.level
  else if field = "lessons" then c.lessons
  else if field = "learningObjectives" then c.learningObjectives
  else if field = "date" then c.date
  else (c.others.lookup field).getD .undef

namespace CONFIG

/-- The setting `CONFIG.VALIDATION.REQUIRED_FIELDS`. -/
def REQUIRED_FIELDS : List String := ["title", "category", "instructor"]

end CONFIG

namespace Utils

/-- The condition of the required-field check:
`!courseData[field] || !courseData[field].toString().trim()`. -/
def fieldMissing (H : Host) (courseData : Course) (field : String) : Bool :=
  !(courseData.get field).truthy ||
    (jsTrim (JVal.toStr H (courseData.get field))).isEmpty

/-- The message pushed for a missing required field. -/
def requiredMessage (field : String) : JsString := js field ++ js " is required"

/-- The function `validateCourseData`: the list of error messages, in the
order they are pushed. -/
def validateCourseData (H : Host) (courseData : Course) : List JsString :=
  (CONFIG.REQUIRED_FIELDS.filter (fieldMissing H courseData)).map requiredMessage ++
  (if (JVal.toNumber H courseData.price).lt CONFIG.MIN_PRICE
    then [js "Price must be at least " ++ H.numberToString CONFIG.MIN_PRICE] else []) ++
  (if (JVal.toNumber H courseData.students).lt CONFIG.MIN_STUDENTS
    then [js "Students count must be at least " ++ H.numberToString CONFIG.MIN_STUDENTS]
    else [])

end Utils

/-! ## The controller (`class CourseAdminApp`), search path -/

/-- The status line element: the colour class and the markup that
`UIComponents.updateStatus` leaves on it. -/
structure StatusElement where
  colourClass : String
  innerHTML : JsString

namespace UIComponents

/-- The function `updateStatus(element, text, type)`. -/
def updateStatus (H : Host) (text : JsString) (type : String) : StatusElement :=
  if type = "loading" then
    { colourClass := "text-primary"
      innerHTML := js "<span class=\"spinner-border spinner-border-sm\" role=\"status\" aria-hidden=\"true\"></span>" ++
        js " <span>" ++ UITemplates.escapeHtml H (.str text) ++ js "</span>" }
  else if type = "error" then
    { colourClass := "text-danger"
      innerHTML := js "<i class=\"bi bi-exclamation-triangle-fill\"></i>" ++
        js " <span>" ++ UITemplates.escapeHtml H (.str text) ++ js "</span>" }
  else if type = "success" then
    { colourClass := "text-success"
      innerHTML := js "<i class=\"bi bi-check-circle-fill\"></i>" ++
        js " <span>" ++ UITemplates.escapeHtml H (.str text) ++ js "</span>" }
  else
    { colourClass := "text-primary"
      innerHTML := js "<i class=\"bi bi-info-circle-fill\"></i>" ++
        js " <span>" ++ UITemplates.escapeHtml H (.str text) ++ js "</span>" }

/-- The function `updateDOM(element, newHTML)` on the markup of the element:
nothing is written when old and new markup agree after trimming. -/
def updateDOM (currentHTML newHTML : JsString) : JsString :=
  if jsTrim currentHTML = jsTrim newHTML then currentHTML else newHTML

end UIComponents

/-- The state of the controller that the search path touches: the data
manager, the markup of the course grid and the status line.  Both elements are
taken to be present in the page. -/
structure CourseAdminApp where
  dataManager : CourseDataManager
  adminGrid : JsString
  statusEl : StatusElement

namespace CourseAdminApp

/-- The markup `html` that `renderCourses(courses, searchTerm)` computes:
one card per record when there is a record to show, the empty state
otherwise.  The argument `courses` is `none` when it is left out. -/
def renderedHtml (H : Host) (app : CourseAdminApp) (courses : Option (List Course))
    (searchTerm : JsString) : JsString :=
  let coursesToRender := courses.getD app.dataManager.getFilteredCourses
  let allCourses := app.dataManager.getAllCourses
  if coursesToRender.length > 0 then
    joinStrings [] (coursesToRender.map (UITemplates.createCourseCard H))
  else
    UITemplates.createEmptyState H (!searchTerm.isEmpty) searchTerm allCourses.length

/-- The method `renderCourses`. -/
def renderCourses (H : Host) (app : CourseAdminApp) (courses : Option (List Course))
    (searchTerm : JsString) : CourseAdminApp :=
  let html := renderedHtml H app courses searchTerm
  let count := app.dataManager.getCoursesCount
  let statusText := if !searchTerm.isEmpty then
      js "Found " ++ H.numberToString (.fin count.2) ++ js " of " ++
        H.numberToString (.fin count.1) ++ js " courses"
    else js "Showing " ++ H.numberToString (.fin count.1) ++ js " courses"
  { app with
    adminGrid := UIComponents.updateDOM app.adminGrid html
    statusEl := UIComponents.updateStatus H statusText "info" }

/-- The method `handleSearch`; `none` when the filter raises. -/
def handleSearch (H : Host) (app : CourseAdminApp) (searchTerm : JsString) :
    Option CourseAdminApp := do
  let (dataManager, filteredCourses) ← app.dataManager.filterCourses H searchTerm
  pure (renderCourses H { app with dataManager := dataManager } (some filteredCourses)
    searchTerm)

end CourseAdminApp

/-! ## Vocabulary of the properties and example inputs -/

namespace JVal

/-- A missing value of a required field: absent, `null` or the empty string. -/
def isMissing : JVal → Bool
  | undef => true
  | null => true
  | str s => s.isEmpty
  | _ => false

end JVal

namespace UITemplates

/-- The five entities that `escapeHtml` writes. -/
def entities : List JsString :=
  [js "&amp;", js "&lt;", js "&gt;", js "&quot;", js "&#39;"]

end UITemplates

namespace Utils

/-- A submission whose title is a single space and whose other fields are
filled in. -/
def blankTitleData : Course :=
  { title := .str (js " "), category := .str (js "c"), instructor := .str (js "i"),
    price := .num (.fin 0), students := .num (.fin 0) }

/-- A submission without category; its price is negative. -/
def noCategoryData : Course :=
  { title := .str (js "T"), instructor := .str (js "i"),
    price := .num (.fin (-1)), students := .num (.fin 3) }

/-- A complete submission. -/
def completeData : Course :=
  { title := .str (js "T"), category := .str (js "c"), instructor := .str (js "i"),
    price := .num (.fin 5), students := .num (.fin 3) }

end Utils

namespace UITemplates

/-- A server list with one record whose student count is a piece of markup. -/
def markupData : List Course :=
  [{ id := .num (.fin 1), title := .str (js "A"),
     students := .str (js "<img src=x onerror=alert(1)>") }]

end UITemplates

namespace CourseAdminApp

/-- The witness list `[(id: 1, title: "A")]`. -/
def witnessList : List Course := [{ id := .num (.fin 1), title := .str (js "A") }]

/-- The stored form of the record of the witness list. -/
def witnessStored : Course :=
  { id := .str (js "1"), title := .str (js "A"), _sheetRow := .null }

/-- A page with an empty grid into which the witness list has been loaded with
`setCourses`. -/
def witnessPage : CourseAdminApp :=
  { dataManager := CourseDataManager.setCourses Host.reference CourseDataManager.new
      witnessList
    adminGrid := []
    statusEl := { colourClass := "text-primary", innerHTML := [] } }

end CourseAdminApp

/-! ## The API service (`class ApiService`) -/

/-- A raised error, given by its `message`. -/
structure JsError where
  message : JsString

/-- The result of an operation that may raise. -/
abbrev Outcome (α : Type) := Except JsError α

namespace JVal

/-- The member `name` of the members of an object, `undefined` when there is
none. -/
def getMember (members : List (MemberName × JVal)) (name : String) : JVal :=
  match members.find? (fun p => decide (p.1.val = name)) with
  | some p => p.2
  | none => JVal.undef

/-- The property read `v.name` for a name that only a data object can carry
(`status`, `message`), on a value other than `null` and `undefined`. -/
def getProp : JVal → String → JVal
  | obj members, name => getMember members name
  | _, _ => JVal.undef

/-- The test `v === s` against a string. -/
def isString : JVal → JsString → Bool
  | str t, s => decide (t = s)
  | _, _ => false

/-- The default of the parameter `payload = (empty object)`: the empty object
stands in for an argument that is left out. -/
def orEmptyObject : JVal → JVal
  | undef => obj []
  | v => v

end JVal

namespace CONFIG

/-- The setting `CONFIG.API.PROXY_URL`. -/
def PROXY_URL : JsString := js "https://courses-api-proxy.amr-omar304.workers.dev/"

end CONFIG

/-- The `options` argument of `fetch`. -/
structure RequestOptions where
  method : JsString
  headers : List (JsString × JsString)
  body : Option JsString

/-- One call of `fetch(url, options)`. -/
structure HttpRequest where
  url : JsString
  options : RequestOptions

/-- A response as the script reads it: the status code and what `text()` and
`json()` settle to. -/
structure HttpResponse where
  status : Nat
  text : Outcome JsString
  json : Outcome JVal

/-- The property `response.ok`: the status is in the range 200 to 299. -/
def HttpResponse.ok (response : HttpResponse) : Bool :=
  200 ≤ response.status && response.status ≤ 299

/-- What the promise returned by `fetch` settles to. -/
inductive FetchOutcome where
  | rejected (error : JsError)
  | fulfilled (response : HttpResponse)

/-- The state of an `ApiService`. -/
structure ApiService where
  baseUrl : JsString

/-- What a method of the service did: the `fetch` calls it issued, in order,
and the value it resolved with or the error it raised. -/
structure ApiRun where
  issued : List HttpRequest
  result : Outcome JVal

namespace ApiService

/-- The `options` object that `request` builds. -/
def requestOptions (H : Host) (action : JsString) (payload : JVal) : RequestOptions :=
  { method := if action = js "load" then js "GET" else js "POST"
    headers := [(js "Content-Type", js "application/json")]
    body := if action ≠ js "load"
      then some (H.jsonStringify
        (.obj [(⟨"action", by decide⟩, .str action), (⟨"payload", by decide⟩, payload)]))
      else none }

/-- The part of the `try` block of `request` after `fetch` has settled. -/
def readResponse (H : Host) : FetchOutcome → Outcome JVal
  | .rejected error => .error error
  | .fulfilled response =>
    if !response.ok then
      match response.text with
      | .error error => .error error
      | .ok errorText =>
        .error ⟨js "API Error " ++ H.numberToString (.fin response.status) ++ js ": " ++
          errorText⟩
    else
      match response.json with
      | .error error => .error error
      | .ok result =>
        if !result.truthy then .error ⟨js "Empty response from server"⟩
        else if (result.getProp "status").isString (js "error") then
          .error ⟨JVal.toStr H ((result.getProp "message").or
            (.str (js "Unknown server error")))⟩
        else .ok result

/-- The method `request(action, payload)`; `fetch` is the network as seen from
the page, a map from the call to what it settles to. -/
def request (H : Host) (api : ApiService) (fetch : HttpRequest → FetchOutcome)
    (action : JsString) (payload : JVal) : ApiRun :=
  let options := requestOptions H action payload.orEmptyObject
  let call : HttpRequest := { url := api.baseUrl, options := options }
  { issued := [call]
    result := match readResponse H (fetch call) with
      | .ok result => .ok result
      | .error error => .error ⟨js "Connection failed: " ++ error.message⟩ }

/-- The method `loadCourses`. -/
def loadCourses (H : Host) (api : ApiService) (fetch : HttpRequest → FetchOutcome) :
    ApiRun :=
  request H api fetch (js "load") JVal.undef

/-- The method `addCourse`; `courseData` are the members of the submitted
object. -/
def addCourse (H : Host) (api : ApiService) (fetch : HttpRequest → FetchOutcome)
    (courseData : List (MemberName × JVal)) : ApiRun :=
  request H api fetch (js "add") (.obj courseData)

/-- The method `updateCourse`. -/
def updateCourse (H : Host) (api : ApiService) (fetch : HttpRequest → FetchOutcome)
    (id : JVal) (courseData : List (MemberName × JVal)) : ApiRun :=
  request H api fetch (js "update")
    (.obj [(⟨"id", by decide⟩, .str (JVal.toStr H id)),
      (⟨"data", by decide⟩, .obj courseData)])

/-- The method `deleteCourse`. -/
def deleteCourse (H : Host) (api : ApiService) (fetch : HttpRequest → FetchOutcome)
    (id : JVal) : ApiRun :=
  request H api fetch (js "delete") (.obj [(⟨"id", by decide⟩, .str (JVal.toStr H id))])

end ApiService

/-! ## Records of a server list -/

/-- The names of the properties that `Course` holds as fields. -/
def Course.fieldNames : List String :=
  ["id", "title", "category", "instructor", "tags", "description", "price", "students",
    "rating", "_sheetRow", "level", "lessons", "learningObjectives", "date"]

/-- The index properties `0, 1, ...` that a spread copies from an array or a
string. -/
def indexedMembers (start : Nat) : List JVal → List (String × JVal)
  | [] => []
  | v :: rest => (toString start, v) :: indexedMembers (start + 1) rest

/-- An element `c` of the server list as the `map` callback of `setCourses`
reads it.  Reading `c.id` raises on `null` and `undefined` (`none`); an object
gives its members; an array or a string gives only index properties; a number
or a boolean gives nothing. -/
def Course.ofJVal : JVal → Option Course
  | .undef => none
  | .null => none
  | .obj members =>
    some
      { id := JVal.getMember members "id"
        title := JVal.getMember members "title"
        category := JVal.getMember members "category"
        instructor := JVal.getMember members "instructor"
        tags := JVal.getMember members "tags"
        description := JVal.getMember members "description"
        price := JVal.getMember members "price"
        students := JVal.getMember members "students"
        rating := JVal.getMember members "rating"
        _sheetRow := JVal.getMember members "_sheetRow"
        level := JVal.getMember members "level"
        lessons := JVal.getMember members "lessons"
        learningObjectives := JVal.getMember members "learningObjectives"
        date := JVal.getMember members "date"
        others := (members.filter (fun p => decide (p.1.val ∉ Course.fieldNames))).map
          (fun p => (p.1.val, p.2)) }
  | .arr items => some { others := indexedMembers 0 items }
  | .str s => some { others := indexedMembers 0 (s.map (fun u => JVal.str [u])) }
  | _ => some {}

/-! ## The controller: loading and closing the editor -/

namespace CourseAdminApp

/-- The field `apiService`, set by the constructor to
`new ApiService(CONFIG.API.PROXY_URL)` and never assigned again. -/
def apiService : ApiService := { baseUrl := CONFIG.PROXY_URL }

/-- The `try` block of `loadCourses`, given what the call of the service
settled to: the state it reaches and the error it raises, if any.  The state is
not touched when the call or the `map` callback of `setCourses` raises. -/
def loadCoursesTry (H : Host) (app : CourseAdminApp) (response : Outcome JVal) :
    CourseAdminApp × Option JsError :=
  match response with
  | .error error => (app, some error)
  | .ok response =>
    let coursesData : Option (List Course) :=
      match response with
      | .arr items => items.mapM Course.ofJVal
      | _ => some []
    match coursesData with
    | none => (app, some ⟨H.nullReadMessage⟩)
    | some coursesData =>
      let loaded := { app with dataManager := app.dataManager.setCourses H coursesData }
      let rendered := renderCourses H loaded none []
      let count := rendered.dataManager.getCoursesCount
      ({ rendered with
          statusEl := UIComponents.updateStatus H
            (H.numberToString (.fin count.1) ++ js " courses loaded successfully!")
            "success" },
        none)

/-- The `catch` block of `loadCourses`. -/
def loadCoursesCatch (H : Host) (app : CourseAdminApp) (error : JsError) :
    CourseAdminApp × Option JsError :=
  ({ app with
      statusEl := UIComponents.updateStatus H (js "Load failed: " ++ error.message) "error"
      adminGrid := UITemplates.createErrorState H (.str error.message) },
    none)

/-- The method `loadCourses` for a given result of the service call: the final
state and the error raised to the caller, if any. -/
def loadCoursesWith (H : Host) (app : CourseAdminApp) (response : Outcome JVal) :
    CourseAdminApp × Option JsError :=
  let started := { app with
    statusEl := UIComponents.updateStatus H (js "Loading courses...") "loading"
    dataManager := app.dataManager.setLoading true }
  let tried := loadCoursesTry H started response
  let caught := match tried.2 with
    | none => tried
    | some error => loadCoursesCatch H tried.1 error
  ({ caught.1 with dataManager := caught.1.dataManager.setLoading false }, caught.2)

/-- The method `loadCourses`. -/
def loadCourses (H : Host) (app : CourseAdminApp) (fetch : HttpRequest → FetchOutcome) :
    CourseAdminApp × Option JsError :=
  loadCoursesWith H app (apiService.loadCourses H fetch).result

/-- What `handleOffcanvasClose` did: the state it leaves, whether the
confirmation was shown and whether `preventDefault` was called on the event. -/
structure CloseResult where
  app : CourseAdminApp
  prompted : Bool
  defaultPrevented : Bool

/-- The method `handleOffcanvasClose(event)`; `userConfirms` is the answer the
user gives if the confirmation is shown. -/
def handleOffcanvasClose (app : CourseAdminApp) (userConfirms : Bool) : CloseResult :=
  if app.dataManager.getDirty && !app.dataManager.getLoading then
    if !userConfirms then
      { app := app, prompted := true, defaultPrevented := true }
    else
      { app := { app with dataManager := app.dataManager.setDirty false },
        prompted := true, defaultPrevented := false }
  else
    { app := app, prompted := false, defaultPrevented := false }

end CourseAdminApp

/-! ## Sequences of calls on the data manager -/

namespace CourseDataManager

/-- A call of one of the methods that hold or read the two lists. -/
inductive Call where
  | setCourses (coursesData : List Course)
  | filterCourses (searchTerm : JsString)
  | getAllCourses
  | getFilteredCourses
  | findCourseById (id : JVal)
  | getCoursesCount

/-- The state after a call.  A `filterCourses` that raises has assigned
nothing; the four read methods contain no assignment. -/
def afterCall (H : Host) (m : CourseDataManager) : Call → CourseDataManager
  | .setCourses coursesData => setCourses H m coursesData
  | .filterCourses searchTerm =>
    match filterCourses H m searchTerm with
    | some (m', _) => m'
    | none => m
  | .getAllCourses => m
  | .getFilteredCourses => m
  | .findCourseById _ => m
  | .getCoursesCount => m

/-- The state after a sequence of calls. -/
def afterCalls (H : Host) (m : CourseDataManager) (calls : List Call) : CourseDataManager :=
  calls.foldl (afterCall H) m

end CourseDataManager

namespace ApiService

/-- A network that answers every call with status 200 and the body
`(status: "error", message: "quota")`. -/
def errorFetch : HttpRequest → FetchOutcome :=
  fun _ => .fulfilled
    { status := 200
      text := .ok (js "")
      json := .ok (.obj [(⟨"status", by decide⟩, .str (js "error")),
        (⟨"message", by decide⟩, .str (js "quota"))]) }

end ApiService

namespace CourseDataManager

/-- An input list in which two records carry the id `1`. -/
def duplicateIdData : List Course :=
  [{ id := .num (.fin 1), title := .str (js "A") },
   { id := .num (.fin 1), title := .str (js "B") }]

/-- An input list whose only record has a number as title. -/
def numericTitleData : List Course :=
  [{ id := .num (.fin 1), title := .num (.fin 2024) }]

end CourseDataManager

namespace UITemplates

/-- A record whose description is 79 letters `a` followed by an ampersand. -/
def cutEntityData : Course :=
  { id := .str (js "1"), description := .str (List.replicate 79 97 ++ [38]) }

end UITemplates

namespace CourseAdminApp

/-- A page in which the list of the witness record is loaded and an edit is
pending. -/
def editingApp : CourseAdminApp :=
  { dataManager :=
      { courses := [witnessStored], filteredCourses := [witnessStored], isLoading := false,
        isDirty := true }
    adminGrid := []
    statusEl := { colourClass := "text-primary", innerHTML := [] } }

/-- A network on which every call fails. -/
def offlineFetch : HttpRequest → FetchOutcome :=
  fun _ => .rejected ⟨js "Failed to fetch"⟩

end CourseAdminApp

/-! ## The editor: tags -/

/-- The built-in `String.prototype.split` for a pattern that matches single
code units (those with `isSep`): the pieces between the matches, empty pieces
included; the empty string gives one empty piece. -/
def jsSplit (isSep : Nat → Bool) : JsString → List JsString
  | [] => [[]]
  | u :: rest =>
    if isSep u then [] :: jsSplit isSep rest
    else
      match jsSplit isSep rest with
      | piece :: pieces => (u :: piece) :: pieces
      | [] => [[u]]

/-- A string without leading and without trailing white space. -/
def hasNoOuterWhiteSpace (s : JsString) : Bool :=
  (match s.head? with
    | some u => !isJsWhiteSpace u
    | none => true) &&
  (match s.getLast? with
    | some u => !isJsWhiteSpace u
    | none => true)

namespace CourseAdminApp

/-- The pattern `/[,،]/` of `collectEditorData`: a comma (44) or an Arabic
comma (1548). -/
def isTagSeparator (u : Nat) : Bool := u = 44 || u = 1548

/-- The tags statement of `populateEditor`: the value of the tags field
afterwards.  The field is `none` when the page has no such element; it is
written only when the element exists and `course.tags` is an array, and then
holds the text it was given. -/
def populateEditorTags (H : Host) (tagsEl : Option JsString) (tags : JVal) :
    Option JsString :=
  match tagsEl, tags with
  | some _, .arr items => some (JVal.join H items (js ", "))
  | tagsEl, _ => tagsEl

/-- The tags statements of `collectEditorData`: the list assigned to
`courseData.tags`, computed from the value of the tags field. -/
def collectEditorDataTags (tagsEl : Option JsString) : List JsString :=
  let tagsValue := match tagsEl with
    | some value => jsTrim value
    | none => []
  if !tagsValue.isEmpty then
    ((jsSplit isTagSeparator tagsValue).map jsTrim).filter (fun t => !t.isEmpty)
  else []

/-- Two tags, the first with a space inside. -/
def exampleTags : List JsString := [js "web dev", js "css"]

end CourseAdminApp

end Cpanal

/-! # Theorems -/

namespace Cpanal

open CourseDataManager

/-! ## Conversions -/

theorem toStr_str (H : Host) (s : JsString) : JVal.toStr H (.str s) = s := by
  simp [JVal.toStr]

theorem jsTrim_nil : jsTrim [] = [] := rfl

theorem jsIncludes_nil (s : JsString) : jsIncludes s [] = true := by
  simp [jsIncludes]

/-! ## Numbers: the comparator orders by the numeric key -/

theorem JsNum.orZero_ne_nan (n : JsNum) : n.orZero ≠ .nan := by
  unfold JsNum.orZero
  cases n <;> simp [JsNum.truthy]
  split <;> simp

theorem JsNum.isPositive_sub_iff_le {x y : JsNum} (hx : x ≠ .nan) (hy : y ≠ .nan) :
    (x.sub y).isPositive = false ↔ x.le y := by
  cases x <;> cases y <;> simp_all [JsNum.sub, JsNum.isPositive, JsNum.le]

theorem JsNum.le_or_ge {x y : JsNum} (hx : x ≠ .nan) (hy : y ≠ .nan) :
    x.le y ∨ y.le x := by
  cases x <;> cases y <;> simp_all [JsNum.le]
  exact LinearOrder.le_total _ _

theorem JsNum.le_chain {x y z : JsNum} (hxy : x.le y) (hyz : y.le z) : x.le z := by
  cases x <;> cases y <;> cases z <;> simp_all [JsNum.le]
  exact hxy.trans hyz

namespace CourseDataManager

theorem numericId_ne_nan (H : Host) (c : Course) : numericId H c ≠ .nan :=
  JsNum.orZero_ne_nan _

theorem sortsBefore_iff (H : Host) (a b : Course) :
    sortsBefore H a b ↔ (numericId H a).le (numericId H b) :=
  JsNum.isPositive_sub_iff_le (numericId_ne_nan H a) (numericId_ne_nan H b)

theorem sortsBefore_total (H : Host) (a b : Course) :
    sortsBefore H a b ∨ sortsBefore H b a := by
  simp only [sortsBefore_iff]
  exact JsNum.le_or_ge (numericId_ne_nan H a) (numericId_ne_nan H b)

theorem sortsBefore_trans (H : Host) (a b c : Course) (hab : sortsBefore H a b)
    (hbc : sortsBefore H b c) : sortsBefore H a c := by
  simp only [sortsBefore_iff] at *
  exact JsNum.le_chain hab hbc

theorem sortById_perm (H : Host) (l : List Course) : (sortById H l).Perm l :=
  List.perm_insertionSort _ l

theorem mem_sortById (H : Host) (l : List Course) (c : Course) :
    c ∈ sortById H l ↔ c ∈ l :=
  (sortById_perm H l).mem_iff

theorem sortById_sorted (H : Host) (l : List Course) :
    (sortById H l).Sorted (fun a b => (numericId H a).le (numericId H b)) := by
  haveI : IsTotal Course (sortsBefore H) := ⟨sortsBefore_total H⟩
  haveI : IsTrans Course (sortsBefore H) := ⟨sortsBefore_trans H⟩
  have h : (sortById H l).Sorted (sortsBefore H) := List.sorted_insertionSort _ l
  exact List.Pairwise.imp (fun hab => (sortsBefore_iff H _ _).mp hab) h

/-! ## Search -/

theorem lowerText_of_isTextual (H : Host) (v : JVal) (h : isTextual v = true) :
    lowerText H v = some (H.toLowerCase (fieldText v)) := by
  cases v with
  | str s => cases s <;> simp [lowerText, fieldText, JVal.or, JVal.truthy]
  | undef => simp [lowerText, fieldText, JVal.or, JVal.truthy]
  | null => simp [lowerText, fieldText, JVal.or, JVal.truthy]
  | bool b =>
    have hb : b = false := by simpa [isTextual, JVal.truthy] using h
    simp [lowerText, fieldText, JVal.or, JVal.truthy, hb]
  | num n =>
    have hn : n.truthy = false := by simpa [isTextual, JVal.truthy] using h
    simp [lowerText, fieldText, JVal.or, JVal.truthy, hn]
  | arr items => simp [isTextual, JVal.truthy] at h
  | obj members => simp [isTextual, JVal.truthy] at h

theorem matchesTerm_of_isTextual (H : Host) (term : JsString) (c : Course)
    (h : isTextual c.title = true ∧ isTextual c.category = true ∧
      isTextual c.instructor = true) :
    matchesTerm H term c = some (containsTerm H term c) := by
  simp [matchesTerm, containsTerm, lowerText_of_isTextual H _ h.1,
    lowerText_of_isTextual H _ h.2.1, lowerText_of_isTextual H _ h.2.2]

theorem filterRaising_eq_filter (p : Course → Option Bool) (q : Course → Bool) :
    ∀ l : List Course, (∀ c ∈ l, p c = some (q c)) → filterRaising p l = some (l.filter q)
  | [], _ => rfl
  | c :: rest, h => by
    have hc : p c = some (q c) := h c (List.mem_cons_self _ _)
    have hrest := filterRaising_eq_filter p q rest
      (fun d hd => h d (List.mem_cons_of_mem _ hd))
    cases hq : q c <;> simp [filterRaising, hc, hrest, hq, List.filter]

end CourseDataManager

end Cpanal

namespace Cpanal

namespace CourseDataManager

/-! ### Normalised records -/

theorem normalizeCourse_id (H : Host) (c : Course) :
    (normalizeCourse H c).id = .str (if c.id.isUndef then [] else JVal.toStr H c.id) := by
  cases h : c.id.isUndef <;> simp [normalizeCourse, h]

theorem findCourseById_eq_some_iff_exists (H : Host) (m : CourseDataManager) (x : JVal)
    (h : ∃ r ∈ m.courses, JVal.toStr H r.id = JVal.toStr H x) :
    ∃ r, findCourseById H m x = some r ∧ r ∈ m.courses ∧
      JVal.toStr H r.id = JVal.toStr H x := by
  obtain ⟨r0, hr0, hid0⟩ := h
  cases hf : findCourseById H m x with
  | none =>
    have hnone := List.find?_eq_none.mp hf r0 hr0
    simp [hid0] at hnone
  | some r =>
    refine ⟨r, rfl, List.mem_of_find?_eq_some hf, ?_⟩
    have hp := List.find?_some hf
    simpa using hp

/-! ### Claims on the data manager -/

/-- C1 (amended): for every stored list whose records hold a string or a falsy
value in title, category and instructor, and every search term, `filterCourses`
returns, and stores as the filtered list, exactly the records of the full list,
in their order, that contain the lower-cased and trimmed term in their
lower-cased title, category, instructor or tags joined by spaces. -/
theorem filterCourses_returns_matching (H : Host) (m : CourseDataManager) (t : JsString)
    (hText : ∀ c ∈ m.courses, isTextual c.title = true ∧ isTextual c.category = true ∧
      isTextual c.instructor = true) :
    filterCourses H m t =
      some ({ m with
          filteredCourses := m.courses.filter (containsTerm H (jsTrim (H.toLowerCase t))) },
        m.courses.filter (containsTerm H (jsTrim (H.toLowerCase t)))) := by
  unfold filterCourses
  by_cases hterm : (jsTrim (H.toLowerCase t)).isEmpty = true
  · have hnil : jsTrim (H.toLowerCase t) = [] := List.isEmpty_iff.mp hterm
    have hall : m.courses.filter (containsTerm H []) = m.courses := by
      apply List.filter_eq_self.mpr
      intro c _
      simp [containsTerm, jsIncludes_nil]
    simp [hnil, hall]
  · have hf := filterRaising_eq_filter (matchesTerm H (jsTrim (H.toLowerCase t)))
      (containsTerm H (jsTrim (H.toLowerCase t))) m.courses
      (fun c hc => matchesTerm_of_isTextual H _ c (hText c hc))
    simp [hterm, hf]

/-- Witness for C1: the stored list with the record titled "a", searched with
the term " a". -/
theorem filterCourses_returns_matching_witness :
    (∀ c ∈ searchExample.courses, isTextual c.title = true ∧ isTextual c.category = true ∧
      isTextual c.instructor = true) ∧
    filterCourses Host.reference searchExample (js " a") =
      some ({ searchExample with
          filteredCourses := searchExample.courses.filter
            (containsTerm Host.reference (jsTrim (Host.reference.toLowerCase (js " a")))) },
        searchExample.courses.filter
          (containsTerm Host.reference (jsTrim (Host.reference.toLowerCase (js " a"))))) :=
  ⟨by decide, filterCourses_returns_matching Host.reference searchExample (js " a") (by decide)⟩

/-- C1 as stated fails: with the term " a" the record titled "a" is returned,
although " a", lower-cased, occurs in none of its fields. -/
theorem filterCourses_untrimmed_counterexample :
    (filterCourses Host.reference searchExample (js " a")).map Prod.snd ≠
      some (searchExample.courses.filter
        (containsTerm Host.reference (Host.reference.toLowerCase (js " a")))) := by
  intro h
  have hlen := congrArg (Option.map List.length) h
  revert hlen
  decide

/-- C10: for every stored list, `filterCourses("")` returns the full list, sets
the filtered list to it and leaves the full list (and the flags) as they
were. -/
theorem filterCourses_empty_term (H : Host) (m : CourseDataManager) :
    ∃ m', filterCourses H m (js "") = some (m', m.courses) ∧
      m'.filteredCourses = m.courses ∧ m'.courses = m.courses ∧
      m'.isLoading = m.isLoading ∧ m'.isDirty = m.isDirty := by
  refine ⟨{ m with filteredCourses := m.courses }, ?_, rfl, rfl, rfl, rfl⟩
  have hjs : js "" = [] := rfl
  simp [filterCourses, hjs, H.toLowerCase_empty, jsTrim_nil]

end CourseDataManager

end Cpanal

namespace Cpanal

namespace CourseDataManager

/-- C2 (amended): for every input list and every record `c` of it whose id is
defined, after `setCourses` the call `findCourseById(c.id)` returns a stored
record whose id is the string form of `c.id` and which is the normalised form
of an input record; that input record has a defined id with the same string
form whenever the string form is not empty (an empty string form is shared with
the records that have no id).  The same record is found when the string form is
passed instead of `c.id`. -/
theorem findCourseById_present (H : Host) (m : CourseDataManager) (data : List Course)
    (c : Course) (hc : c ∈ data) (hid : c.id.isUndef = false) :
    ∃ r c', findCourseById H (setCourses H m data) c.id = some r ∧
      findCourseById H (setCourses H m data) (.str (JVal.toStr H c.id)) = some r ∧
      r.id = .str (JVal.toStr H c.id) ∧ c' ∈ data ∧ r = normalizeCourse H c' ∧
      (JVal.toStr H c.id ≠ [] →
        c'.id.isUndef = false ∧ JVal.toStr H c'.id = JVal.toStr H c.id) := by
  have hstored : ∃ r ∈ (setCourses H m data).courses,
      JVal.toStr H r.id = JVal.toStr H c.id := by
    refine ⟨normalizeCourse H c, ?_, ?_⟩
    · exact (mem_sortById H _ _).mpr (List.mem_map_of_mem _ hc)
    · simp [normalizeCourse_id, hid, toStr_str]
  obtain ⟨r, hfind, hmem, hrid⟩ := findCourseById_eq_some_iff_exists H _ _ hstored
  obtain ⟨c', hc', hr⟩ := List.mem_map.mp ((mem_sortById H _ _).mp hmem)
  have hnorm : r.id = .str (if c'.id.isUndef then [] else JVal.toStr H c'.id) := by
    rw [← hr]
    exact normalizeCourse_id H c'
  have hrid' : (if c'.id.isUndef then [] else JVal.toStr H c'.id) = JVal.toStr H c.id := by
    rw [hnorm, toStr_str] at hrid
    exact hrid
  refine ⟨r, c', hfind, ?_, ?_, hc', hr.symm, ?_⟩
  · have : findCourseById H (setCourses H m data) (.str (JVal.toStr H c.id)) =
        findCourseById H (setCourses H m data) c.id := by
      simp [findCourseById, toStr_str]
    rw [this]
    exact hfind
  · rw [hnorm, hrid']
  · intro hne
    cases hu : c'.id.isUndef with
    | true =>
      rw [hu] at hrid'
      exact absurd hrid'.symm hne
    | false =>
      rw [hu] at hrid'
      exact ⟨rfl, by simpa using hrid'⟩

/-- Witness for C2: the second record of `emptyIdData`, whose id is the empty
string. -/
theorem findCourseById_present_witness :
    ∃ r c', findCourseById Host.reference (setCourses Host.reference new emptyIdData)
        (JVal.str []) = some r ∧
      findCourseById Host.reference (setCourses Host.reference new emptyIdData)
        (.str (JVal.toStr Host.reference (JVal.str []))) = some r ∧
      r.id = .str (JVal.toStr Host.reference (JVal.str [])) ∧ c' ∈ emptyIdData ∧
      r = normalizeCourse Host.reference c' ∧
      (JVal.toStr Host.reference (JVal.str []) ≠ [] →
        c'.id.isUndef = false ∧
          JVal.toStr Host.reference c'.id = JVal.toStr Host.reference (JVal.str [])) :=
  findCourseById_present Host.reference new emptyIdData
    { id := .str [], title := .str (js "Y") } (by simp [emptyIdData]) rfl

/-- C2 as stated fails: in `emptyIdData` the id `""` is defined on the second
record, but `findCourseById("")` returns the stored form of the first record,
which carries no id; no input record with a defined id has the returned
title. -/
theorem findCourseById_empty_id_counterexample :
    ¬ ∃ r c', findCourseById Host.reference (setCourses Host.reference new emptyIdData)
        (JVal.str []) = some r ∧
      c' ∈ emptyIdData ∧ c'.id.isUndef = false ∧ r = normalizeCourse Host.reference c' := by
  rintro ⟨r, c', hfind, hmem, hdef, hr⟩
  have heval :
      (findCourseById Host.reference (setCourses Host.reference new emptyIdData)
        (JVal.str [])).map (fun r => JVal.toStr Host.reference r.title) = some (js "X") := by
    decide!
  rw [hfind] at heval
  simp [emptyIdData] at hmem
  rcases hmem with rfl | rfl
  · simp [JVal.isUndef] at hdef
  · rw [hr] at heval
    revert heval
    decide

/-- C3 (amended): for every input list and every identifier `x` whose string
form differs from the string form of the id of every record that has one, and
is not empty when some record has no id, `findCourseById(x)` returns no match
after `setCourses`. -/
theorem findCourseById_absent (H : Host) (m : CourseDataManager) (data : List Course)
    (x : JVal)
    (hx : ∀ c ∈ data, (c.id.isUndef = false → JVal.toStr H c.id ≠ JVal.toStr H x) ∧
      (c.id.isUndef = true → JVal.toStr H x ≠ [])) :
    findCourseById H (setCourses H m data) x = none := by
  apply List.find?_eq_none.mpr
  intro r hr
  obtain ⟨c, hc, hrc⟩ := List.mem_map.mp ((mem_sortById H _ _).mp hr)
  have hnorm : r.id = .str (if c.id.isUndef then [] else JVal.toStr H c.id) := by
    rw [← hrc]
    exact normalizeCourse_id H c
  have hcx := hx c hc
  rw [hnorm, toStr_str]
  cases hu : c.id.isUndef with
  | true => simpa using fun h => hcx.2 hu h
  | false => simpa using hcx.1 hu

/-- Witness for C3: the list `emptyIdData` and the identifier `"7"`. -/
theorem findCourseById_absent_witness :
    (∀ c ∈ emptyIdData,
      (c.id.isUndef = false →
        JVal.toStr Host.reference c.id ≠ JVal.toStr Host.reference (.str (js "7"))) ∧
      (c.id.isUndef = true → JVal.toStr Host.reference (.str (js "7")) ≠ [])) ∧
    findCourseById Host.reference (setCourses Host.reference new emptyIdData)
      (.str (js "7")) = none :=
  ⟨by decide, findCourseById_absent Host.reference new emptyIdData (.str (js "7")) (by decide)⟩

/-- C3 as stated fails: in `mixedIdData` the only identifier is `5`, so `""`
is the identifier of no record, yet `findCourseById("")` returns a match, the
record titled "A" that has no id. -/
theorem findCourseById_absent_counterexample :
    (∀ c ∈ mixedIdData, c.id.isUndef = false →
      JVal.toStr Host.reference c.id ≠ JVal.toStr Host.reference (.str [])) ∧
    (findCourseById Host.reference (setCourses Host.reference new mixedIdData)
      (.str [])).map (fun r => JVal.toStr Host.reference r.title) = some (js "A") := by
  constructor <;> decide!

/-- C8: for every input list, after `setCourses` the full list is a
rearrangement of the normalised input records, each once, in non-decreasing
order of the numeric identifier `parseInt(id) || 0` (which is `0` when
`parseInt` gives `NaN`), and the filtered list is the same sequence.  A
normalised record has the string form of the id (the empty string when the id
is missing), a number or `null` as `_sheetRow`, and every other property as in
the input. -/
theorem setCourses_sorted_permutation (H : Host) (m : CourseDataManager)
    (data : List Course) :
    ((setCourses H m data).courses).Perm (data.map (normalizeCourse H)) ∧
    ((setCourses H m data).courses).Sorted
      (fun a b => (numericId H a).le (numericId H b)) ∧
    (setCourses H m data).filteredCourses = (setCourses H m data).courses ∧
    (∀ r : Course, numericId H r =
      if H.parseInt (JVal.toStr H r.id) = .nan then .fin 0
      else H.parseInt (JVal.toStr H r.id)) ∧
    (∀ c : Course,
      (normalizeCourse H c).id = .str (if c.id.isUndef then [] else JVal.toStr H c.id) ∧
      ((normalizeCourse H c)._sheetRow = .null ∨
        ∃ n, (normalizeCourse H c)._sheetRow = .num n) ∧
      (normalizeCourse H c).title = c.title ∧
      (normalizeCourse H c).category = c.category ∧
      (normalizeCourse H c).instructor = c.instructor ∧
      (normalizeCourse H c).tags = c.tags ∧
      (normalizeCourse H c).description = c.description ∧
      (normalizeCourse H c).price = c.price ∧
      (normalizeCourse H c).students = c.students ∧
      (normalizeCourse H c).rating = c.rating ∧
      (normalizeCourse H c).level = c.level ∧
      (normalizeCourse H c).lessons = c.lessons ∧
      (normalizeCourse H c).learningObjectives = c.learningObjectives ∧
      (normalizeCourse H c).date = c.date ∧
      (normalizeCourse H c).others = c.others) := by
  refine ⟨sortById_perm H _, sortById_sorted H _, rfl, ?_, ?_⟩
  · intro r
    unfold numericId JsNum.orZero
    cases hp : H.parseInt (JVal.toStr H r.id) <;> simp [JsNum.truthy]
    exact fun h => h.symm
  · intro c
    refine ⟨normalizeCourse_id H c, ?_, rfl, rfl, rfl, rfl, rfl, rfl, rfl, rfl, rfl, rfl,
      rfl, rfl, rfl⟩
    unfold normalizeCourse
    by_cases h : (!c._sheetRow.isUndef && !c._sheetRow.isNull) = true
    · exact Or.inr ⟨_, by simp only [h]; rfl⟩
    · exact Or.inl (by simp only [h]; rfl)

end CourseDataManager

end Cpanal

namespace Cpanal

/-! ## Escaping -/

namespace UITemplates

theorem js_amp : js "&amp;" = [38, 97, 109, 112, 59] := by decide

theorem js_lt : js "&lt;" = [38, 108, 116, 59] := by decide

theorem js_gt : js "&gt;" = [38, 103, 116, 59] := by decide

theorem js_quot : js "&quot;" = [38, 113, 117, 111, 116, 59] := by decide

theorem js_apos : js "&#39;" = [38, 35, 51, 57, 59] := by decide

theorem escapeUnit_cases (u : Nat) :
    (escapeUnit u = [u] ∧ u ≠ 38 ∧ u ≠ 60 ∧ u ≠ 62 ∧ u ≠ 34 ∧ u ≠ 39) ∨
    escapeUnit u = [38, 97, 109, 112, 59] ∨ escapeUnit u = [38, 108, 116, 59] ∨
    escapeUnit u = [38, 103, 116, 59] ∨ escapeUnit u = [38, 113, 117, 111, 116, 59] ∨
    escapeUnit u = [38, 35, 51, 57, 59] := by
  unfold escapeUnit
  rw [js_amp, js_lt, js_gt, js_quot, js_apos]
  by_cases h1 : u = 38
  · simp [h1]
  by_cases h2 : u = 60
  · simp [h2]
  by_cases h3 : u = 62
  · simp [h3]
  by_cases h4 : u = 34
  · simp [h4]
  by_cases h5 : u = 39
  · simp [h5]
  · simp [h1, h2, h3, h4, h5]

theorem not_mem_escapeUnit (u x : Nat) (hx : x = 60 ∨ x = 62 ∨ x = 34 ∨ x = 39) :
    x ∉ escapeUnit u := by
  intro hmem
  rcases escapeUnit_cases u with ⟨h, -, h60, h62, h34, h39⟩ | h | h | h | h | h <;>
    rw [h] at hmem <;> simp at hmem <;> omega

theorem escapeUnit_amp_at_head (u : Nat) (pre post : JsString)
    (h : escapeUnit u = pre ++ 38 :: post) : pre = [] ∧ escapeUnit u ∈ entities := by
  have hent : ∀ e ∈ entities, escapeUnit u = e → pre = [] := by
    intro e he heq
    rw [heq] at h
    cases pre with
    | nil => rfl
    | cons a pre' =>
      exfalso
      have hmem : (38 : Nat) ∈ e.tail := by
        rw [h]
        simp
      revert hmem
      simp only [entities, js_amp, js_lt, js_gt, js_quot, js_apos] at he
      simp at he
      rcases he with rfl | rfl | rfl | rfl | rfl <;> decide
  unfold entities
  rw [js_amp, js_lt, js_gt, js_quot, js_apos]
  have hent' := hent
  unfold entities at hent'
  rw [js_amp, js_lt, js_gt, js_quot, js_apos] at hent'
  rcases escapeUnit_cases u with ⟨hu, h38, -⟩ | hu | hu | hu | hu | hu
  · exfalso
    rw [hu] at h
    cases pre with
    | nil =>
      simp at h
      exact h38 h.1
    | cons a pre' => simp at h
  all_goals exact ⟨hent' _ (by simp [hu]) hu, by simp [hu]⟩

theorem flatMap_escapeUnit_amp (s : JsString) :
    ∀ pre post : JsString, s.flatMap escapeUnit = pre ++ 38 :: post →
      ∃ e ∈ entities, e <+: 38 :: post := by
  induction s with
  | nil =>
    intro pre post h
    simp at h
  | cons u rest ih =>
    intro pre post h
    rw [List.flatMap_cons] at h
    rcases List.append_eq_append_iff.mp h with ⟨a, hpre, hrest⟩ | ⟨c, hu, hpost⟩
    · exact ih a post hrest
    · cases c with
      | nil =>
        simp at hpost
        exact ih [] post hpost.symm
      | cons x c' =>
        have hx : x = 38 := by
          have := congrArg List.head? hpost
          simp at this
          exact this.symm
        subst hx
        obtain ⟨hnil, hmem⟩ := escapeUnit_amp_at_head u pre c' hu
        refine ⟨escapeUnit u, hmem, ?_⟩
        rw [hpost, hu, hnil]
        exact List.prefix_append _ _

/-- C6: for every string `s`, `escapeHtml(s)` is `s` with each ampersand,
less-than, greater-than, double quote and single quote replaced by its entity
and every other code unit kept in place; the result holds none of the four
characters less-than, greater-than, double quote, single quote, and every
ampersand in it starts one of the five entities. -/
theorem escapeHtml_entities (H : Host) (s : JsString) :
    escapeHtml H (.str s) = s.flatMap (fun u =>
      if u = 38 then js "&amp;" else if u = 60 then js "&lt;"
      else if u = 62 then js "&gt;" else if u = 34 then js "&quot;"
      else if u = 39 then js "&#39;" else [u]) ∧
    60 ∉ escapeHtml H (.str s) ∧ 62 ∉ escapeHtml H (.str s) ∧
    34 ∉ escapeHtml H (.str s) ∧ 39 ∉ escapeHtml H (.str s) ∧
    ∀ pre post : JsString, escapeHtml H (.str s) = pre ++ 38 :: post →
      ∃ e ∈ entities, e <+: 38 :: post := by
  have hdef : escapeHtml H (.str s) = s.flatMap escapeUnit := by
    simp [escapeHtml, toStr_str]
  have hnot : ∀ x, (x = 60 ∨ x = 62 ∨ x = 34 ∨ x = 39) → x ∉ s.flatMap escapeUnit := by
    intro x hx hmem
    obtain ⟨u, -, hu⟩ := List.mem_flatMap.mp hmem
    exact not_mem_escapeUnit u x hx hu
  rw [hdef]
  refine ⟨rfl, hnot 60 (by simp), hnot 62 (by simp), hnot 34 (by simp), hnot 39 (by simp),
    flatMap_escapeUnit_amp s⟩

end UITemplates

/-! ## Validation -/

namespace Utils

theorem fieldMissing_of_isMissing (H : Host) (d : Course) (f : String)
    (h : (d.get f).isMissing = true) : fieldMissing H d f = true := by
  unfold fieldMissing
  cases hv : d.get f <;> simp_all [JVal.isMissing, JVal.truthy]

/-- C4: for every submission in which at least one of title, category,
instructor is missing (absent, `null` or the empty string),
`validateCourseData` returns a non-empty error list that contains the message
of each missing field, whatever the other fields hold. -/
theorem validateCourseData_rejects_missing (H : Host) (courseData : Course)
    (h : ∃ f ∈ CONFIG.REQUIRED_FIELDS, (courseData.get f).isMissing = true) :
    validateCourseData H courseData ≠ [] ∧
    ∀ f ∈ CONFIG.REQUIRED_FIELDS, (courseData.get f).isMissing = true →
      js f ++ js " is required" ∈ validateCourseData H courseData := by
  have hall : ∀ f ∈ CONFIG.REQUIRED_FIELDS, (courseData.get f).isMissing = true →
      js f ++ js " is required" ∈ validateCourseData H courseData := by
    intro f hf hmiss
    unfold validateCourseData
    apply List.mem_append_left
    apply List.mem_append_left
    exact List.mem_map.mpr
      ⟨f, List.mem_filter.mpr ⟨hf, fieldMissing_of_isMissing H courseData f hmiss⟩, rfl⟩
  obtain ⟨f, hf, hmiss⟩ := h
  exact ⟨List.ne_nil_of_mem (hall f hf hmiss), hall⟩

/-- Witness for C4: a submission without category. -/
theorem validateCourseData_rejects_missing_witness :
    (∃ f ∈ CONFIG.REQUIRED_FIELDS, (noCategoryData.get f).isMissing = true) ∧
    validateCourseData Host.reference noCategoryData ≠ [] ∧
    ∀ f ∈ CONFIG.REQUIRED_FIELDS, (noCategoryData.get f).isMissing = true →
      js f ++ js " is required" ∈ validateCourseData Host.reference noCategoryData :=
  ⟨⟨"category", by decide, by decide⟩,
    validateCourseData_rejects_missing Host.reference noCategoryData
      ⟨"category", by decide, by decide⟩⟩

theorem JsNum.lt_zero_eq_false_of_le (p : JsNum) (h : (JsNum.fin 0).le p) :
    p.lt (.fin 0) = false := by
  cases p <;> simp_all [JsNum.le, JsNum.lt]

theorem fieldMissing_of_nonblank (H : Host) (d : Course) (f : String) (s : JsString)
    (hs : d.get f = .str s) (hne : jsTrim s ≠ []) : fieldMissing H d f = false := by
  have hs' : s ≠ [] := by
    rintro rfl
    exact hne jsTrim_nil
  unfold fieldMissing
  rw [hs, toStr_str]
  cases s with
  | nil => exact absurd rfl hs'
  | cons a t =>
    cases hj : jsTrim (a :: t) with
    | nil => exact absurd hj hne
    | cons b r => simp [JVal.truthy]

/-- C5 (amended): for every submission whose title, category and instructor
are strings that are not empty after trimming, and whose price and students are
non-negative numbers, `validateCourseData` returns the empty error list. -/
theorem validateCourseData_accepts (H : Host) (courseData : Course)
    (title category instructor : JsString) (price students : JsNum)
    (hTitle : courseData.title = .str title) (hTitleText : jsTrim title ≠ [])
    (hCategory : courseData.category = .str category) (hCategoryText : jsTrim category ≠ [])
    (hInstructor : courseData.instructor = .str instructor)
    (hInstructorText : jsTrim instructor ≠ [])
    (hPrice : courseData.price = .num price) (hPriceMin : (JsNum.fin 0).le price)
    (hStudents : courseData.students = .num students)
    (hStudentsMin : (JsNum.fin 0).le students) :
    validateCourseData H courseData = [] := by
  have h1 : fieldMissing H courseData "title" = false :=
    fieldMissing_of_nonblank H courseData "title" title hTitle hTitleText
  have h2 : fieldMissing H courseData "category" = false :=
    fieldMissing_of_nonblank H courseData "category" category hCategory hCategoryText
  have h3 : fieldMissing H courseData "instructor" = false :=
    fieldMissing_of_nonblank H courseData "instructor" instructor hInstructor hInstructorText
  unfold validateCourseData
  simp [CONFIG.REQUIRED_FIELDS, List.filter, h1, h2, h3, hPrice, hStudents, JVal.toNumber,
    CONFIG.MIN_PRICE, CONFIG.MIN_STUDENTS, JsNum.lt_zero_eq_false_of_le _ hPriceMin,
    JsNum.lt_zero_eq_false_of_le _ hStudentsMin]

/-- Witness for C5: a complete submission. -/
theorem validateCourseData_accepts_witness :
    validateCourseData Host.reference completeData = [] :=
  validateCourseData_accepts Host.reference completeData (js "T") (js "c") (js "i")
    (.fin 5) (.fin 3) rfl (by decide) rfl (by decide) rfl (by decide) rfl
    (by simp [JsNum.le]) rfl (by simp [JsNum.le])

/-- C5 as stated fails: the title " " is a non-empty string and price and
students are 0, yet the submission is rejected with the message for the
title. -/
theorem validateCourseData_blank_title_counterexample :
    blankTitleData.title = .str (js " ") ∧ js " " ≠ [] ∧
    blankTitleData.category = .str (js "c") ∧ js "c" ≠ [] ∧
    blankTitleData.instructor = .str (js "i") ∧ js "i" ≠ [] ∧
    blankTitleData.price = .num (.fin 0) ∧ blankTitleData.students = .num (.fin 0) ∧
    validateCourseData Host.reference blankTitleData = [js "title is required"] := by
  refine ⟨rfl, by decide, rfl, by decide, rfl, by decide, rfl, rfl, by decide⟩

end Utils

end Cpanal

namespace Cpanal

/-! ## Cards and the search path -/

namespace UITemplates

open CourseDataManager

/-- C7, at the failing input: the record `(id: 1, title: "A", students:
"<img src=x onerror=alert(1)>")` is stored by `setCourses` with its student
count untouched, and its card holds that value verbatim, angle brackets
included, while a less-than sign in the title of a card is written as an
entity. -/
theorem createCourseCard_students_verbatim :
    (setCourses Host.reference new markupData).courses.map
      (fun c => jsIncludes (createCourseCard Host.reference c)
        (js "<span class=\"me-2\">👥 <img src=x onerror=alert(1)> students</span>")) =
      [true] ∧
    jsIncludes (createCourseCard Host.reference
        { id := .str (js "1"), title := .str (js "<b>") })
      (js "<h3 class=\"h6 card-title mt-2\">&lt;b&gt;</h3>") = true := by
  constructor <;> decide!

end UITemplates

namespace CourseAdminApp

open CourseDataManager UITemplates

theorem updateDOM_trim (currentHTML newHTML : JsString) :
    jsTrim (UIComponents.updateDOM currentHTML newHTML) = jsTrim newHTML := by
  unfold UIComponents.updateDOM
  by_cases h : jsTrim currentHTML = jsTrim newHTML
  · rw [if_pos h, h]
  · rw [if_neg h]

/-- C9: on the witness list `[(id: 1, title: "A")]`, loaded with `setCourses`:
the stored list is the one record with id "1" and title "A".  On a page with
any grid markup `g`, `handleSearch("a")` filters to that record, computes as
markup exactly its card, `createCourseCard` of the stored record, and writes it
to the grid: the grid then holds the card, or is left as it was when it already
held the card up to surrounding white space; `handleSearch("z")` filters to the
empty list and in the same way writes `createEmptyState(true, "z", 1)`.  On the
page with an empty grid, searching "a" leaves exactly the card in the grid and
searching "z" after that leaves exactly the no-match state.  The card shows the
title "A"; the no-match state has the text `No courses match "z"` and not the
text `No courses yet`. -/
theorem handleSearch_end_to_end (g : JsString) (st : StatusElement) :
    (setCourses Host.reference new witnessList).courses = [witnessStored] ∧
    (∃ app', handleSearch Host.reference
        { dataManager := setCourses Host.reference new witnessList, adminGrid := g,
          statusEl := st } (js "a") = some app' ∧
      app'.dataManager.filteredCourses = [witnessStored] ∧
      app'.dataManager.courses = [witnessStored] ∧
      renderedHtml Host.reference app' (some app'.dataManager.filteredCourses) (js "a") =
        createCourseCard Host.reference witnessStored ∧
      app'.adminGrid =
        (if jsTrim g = jsTrim (createCourseCard Host.reference witnessStored) then g
          else createCourseCard Host.reference witnessStored) ∧
      jsTrim app'.adminGrid = jsTrim (createCourseCard Host.reference witnessStored)) ∧
    (∃ app', handleSearch Host.reference
        { dataManager := setCourses Host.reference new witnessList, adminGrid := g,
          statusEl := st } (js "z") = some app' ∧
      app'.dataManager.filteredCourses = [] ∧
      app'.dataManager.courses = [witnessStored] ∧
      renderedHtml Host.reference app' (some app'.dataManager.filteredCourses) (js "z") =
        createEmptyState Host.reference true (js "z") 1 ∧
      app'.adminGrid =
        (if jsTrim g = jsTrim (createEmptyState Host.reference true (js "z") 1) then g
          else createEmptyState Host.reference true (js "z") 1) ∧
      jsTrim app'.adminGrid = jsTrim (createEmptyState Host.reference true (js "z") 1)) ∧
    (handleSearch Host.reference witnessPage (js "a")).map (fun app => app.adminGrid) =
      some (createCourseCard Host.reference witnessStored) ∧
    ((handleSearch Host.reference witnessPage (js "a")).bind
        (fun app => handleSearch Host.reference app (js "z"))).map
        (fun app => (app.adminGrid, app.dataManager.filteredCourses.length)) =
      some (createEmptyState Host.reference true (js "z") 1, 0) ∧
    (handleSearch Host.reference witnessPage (js "z")).map (fun app => app.adminGrid) =
      some (createEmptyState Host.reference true (js "z") 1) ∧
    jsIncludes (createCourseCard Host.reference witnessStored)
      (js "<h3 class=\"h6 card-title mt-2\">A</h3>") = true ∧
    jsIncludes (createEmptyState Host.reference true (js "z") 1)
      (js "No courses match \"z\"") = true ∧
    jsIncludes (createEmptyState Host.reference true (js "z") 1)
      (js "No courses yet") = false := by
  refine ⟨rfl, ⟨_, rfl, rfl, rfl, rfl, rfl, updateDOM_trim g _⟩,
    ⟨_, rfl, rfl, rfl, rfl, rfl, updateDOM_trim g _⟩, ?_, ?_, ?_, ?_, ?_, ?_⟩ <;> decide!

end CourseAdminApp

end Cpanal

namespace Cpanal

/-! ## The API service -/

namespace ApiService

theorem request_result (H : Host) (api : ApiService) (fetch : HttpRequest → FetchOutcome)
    (action : JsString) (payload : JVal) :
    (request H api fetch action payload).result =
      match readResponse H (fetch ⟨api.baseUrl, requestOptions H action payload.orEmptyObject⟩) with
      | .ok result => .ok result
      | .error error => .error ⟨js "Connection failed: " ++ error.message⟩ := rfl

theorem readResponse_eq_ok_iff (H : Host) (o : FetchOutcome) (v : JVal) :
    readResponse H o = .ok v ↔
      ∃ r, o = .fulfilled r ∧ r.ok = true ∧ r.json = .ok v ∧ v.truthy = true ∧
        (v.getProp "status").isString (js "error") = false := by
  constructor
  · intro h
    cases o with
    | rejected e => simp [readResponse] at h
    | fulfilled r =>
      refine ⟨r, rfl, ?_⟩
      unfold readResponse at h
      cases hok : r.ok with
      | false =>
        simp only [hok] at h
        cases ht : r.text <;> simp [ht] at h
      | true =>
        simp only [hok] at h
        cases hj : r.json with
        | error e => simp [hj] at h
        | ok result =>
          simp only [hj] at h
          cases htr : result.truthy with
          | false => simp [htr] at h
          | true =>
            cases hst : (result.getProp "status").isString (js "error") with
            | true => simp [htr, hst] at h
            | false =>
              simp [htr, hst] at h
              subst h
              exact ⟨rfl, rfl, htr, hst⟩
  · rintro ⟨r, rfl, hok, hj, htr, hst⟩
    simp [readResponse, hok, hj, htr, hst]

/-- C11: the result of `request` is determined by what `fetch` settles to.  It
resolves with a value exactly when the response has a 2xx status, `json()`
gives that value, the value is truthy and its `status` member is not the string
`error`; otherwise it raises.  The raised message is `Connection failed: `
followed by: the string form of the `message` member of a body with status
`error` (or `Unknown server error` when that member is falsy);
`API Error <status>: <text>` for a non-2xx response with body text `<text>`;
`Empty response from server` for a falsy body. -/
theorem request_resolves_or_raises (H : Host) (api : ApiService)
    (fetch : HttpRequest → FetchOutcome) (action : JsString) (payload : JVal) :
    (∀ (api' : ApiService) (fetch' : HttpRequest → FetchOutcome) (action' : JsString)
        (payload' : JVal),
      fetch' ⟨api'.baseUrl, requestOptions H action' payload'.orEmptyObject⟩ =
        fetch ⟨api.baseUrl, requestOptions H action payload.orEmptyObject⟩ →
      (request H api' fetch' action' payload').result =
        (request H api fetch action payload).result) ∧
    (∀ v, (request H api fetch action payload).result = .ok v ↔
      ∃ r, fetch ⟨api.baseUrl, requestOptions H action payload.orEmptyObject⟩ = .fulfilled r ∧
        r.ok = true ∧ r.json = .ok v ∧ v.truthy = true ∧
        (v.getProp "status").isString (js "error") = false) ∧
    ((∀ v, (request H api fetch action payload).result ≠ .ok v) →
      ∃ e, (request H api fetch action payload).result = .error e) ∧
    (∀ r v, fetch ⟨api.baseUrl, requestOptions H action payload.orEmptyObject⟩ = .fulfilled r →
      r.ok = true → r.json = .ok v → v.truthy = true →
      (v.getProp "status").isString (js "error") = true →
      (request H api fetch action payload).result =
        .error ⟨js "Connection failed: " ++
          (if (v.getProp "message").truthy then JVal.toStr H (v.getProp "message")
            else js "Unknown server error")⟩) ∧
    (∀ r errorText, fetch ⟨api.baseUrl, requestOptions H action payload.orEmptyObject⟩ = .fulfilled r →
      r.ok = false → r.text = .ok errorText →
      (request H api fetch action payload).result =
        .error ⟨js "Connection failed: " ++ (js "API Error " ++
          H.numberToString (.fin r.status) ++ js ": " ++ errorText)⟩) ∧
    (∀ r v, fetch ⟨api.baseUrl, requestOptions H action payload.orEmptyObject⟩ = .fulfilled r →
      r.ok = true → r.json = .ok v → v.truthy = false →
      (request H api fetch action payload).result =
        .error ⟨js "Connection failed: " ++ js "Empty response from server"⟩) := by
  refine ⟨?_, ?_, ?_, ?_, ?_, ?_⟩
  · intro api' fetch' action' payload' h
    rw [request_result, request_result, h]
  · intro v
    rw [request_result, ← readResponse_eq_ok_iff]
    cases readResponse H _ <;> simp
  · intro h
    rw [request_result] at h ⊢
    cases hr : readResponse H _ with
    | error e => exact ⟨_, rfl⟩
    | ok v =>
      rw [hr] at h
      exact absurd rfl (h v)
  · intro r v hf hok hj htr hst
    rw [request_result, hf]
    cases hm : (v.getProp "message").truthy <;>
      simp [readResponse, hok, hj, htr, hst, JVal.or, hm, toStr_str]
  · intro r errorText hf hok ht
    rw [request_result, hf]
    simp [readResponse, hok, ht]
  · intro r v hf hok hj htr
    rw [request_result, hf]
    simp [readResponse, hok, hj, htr]

/-- Witness for C11: a network answering every call with status 200 and the
body `(status: "error", message: "quota")`; the call raises
`Connection failed: quota`. -/
theorem request_resolves_or_raises_witness :
    (request Host.reference CourseAdminApp.apiService errorFetch (js "add")
      (.obj [])).result = .error ⟨js "Connection failed: quota"⟩ :=
  (request_resolves_or_raises Host.reference CourseAdminApp.apiService errorFetch
    (js "add") (.obj [])).2.2.2.1 _ _ rfl rfl rfl rfl rfl

/-- C12: `request` issues exactly one call of `fetch`, to the base URL: with
method GET and no body when the action is `load`, with method POST and the JSON
text of `(action, payload)` as body for every other action (the payload is the
empty object when it is left out).  `loadCourses`, `addCourse(data)`,
`updateCourse(id, data)` and `deleteCourse(id)` are the requests with actions
`load`, `add`, `update`, `delete` and payloads none, `data`,
`(id: String(id), data: data)` and `(id: String(id))`. -/
theorem request_issues_one_call (H : Host) (api : ApiService)
    (fetch : HttpRequest → FetchOutcome) (action : JsString) (payload : JVal)
    (id : JVal) (data : List (MemberName × JVal)) :
    (request H api fetch action payload).issued =
      [{ url := api.baseUrl
         options :=
          { method := if action = js "load" then js "GET" else js "POST"
            headers := [(js "Content-Type", js "application/json")]
            body := if action = js "load" then none
              else some (H.jsonStringify (.obj [(⟨"action", by decide⟩, .str action),
                (⟨"payload", by decide⟩, payload.orEmptyObject)])) } }] ∧
    (payload.isUndef = false → payload.orEmptyObject = payload) ∧
    (loadCourses H api fetch).issued =
      [{ url := api.baseUrl
         options := { method := js "GET"
                      headers := [(js "Content-Type", js "application/json")]
                      body := none } }] ∧
    loadCourses H api fetch = request H api fetch (js "load") .undef ∧
    (addCourse H api fetch data).issued =
      [{ url := api.baseUrl
         options :=
          { method := js "POST"
            headers := [(js "Content-Type", js "application/json")]
            body := some (H.jsonStringify (.obj [(⟨"action", by decide⟩, .str (js "add")),
              (⟨"payload", by decide⟩, .obj data)])) } }] ∧
    addCourse H api fetch data = request H api fetch (js "add") (.obj data) ∧
    (updateCourse H api fetch id data).issued =
      [{ url := api.baseUrl
         options :=
          { method := js "POST"
            headers := [(js "Content-Type", js "application/json")]
            body := some (H.jsonStringify
              (.obj [(⟨"action", by decide⟩, .str (js "update")),
                (⟨"payload", by decide⟩,
                  .obj [(⟨"id", by decide⟩, .str (JVal.toStr H id)),
                    (⟨"data", by decide⟩, .obj data)])])) } }] ∧
    (deleteCourse H api fetch id).issued =
      [{ url := api.baseUrl
         options :=
          { method := js "POST"
            headers := [(js "Content-Type", js "application/json")]
            body := some (H.jsonStringify
              (.obj [(⟨"action", by decide⟩, .str (js "delete")),
                (⟨"payload", by decide⟩,
                  .obj [(⟨"id", by decide⟩, .str (JVal.toStr H id))])])) } }] := by
  have hadd : js "add" ≠ js "load" := by decide
  have hupd : js "update" ≠ js "load" := by decide
  have hdel : js "delete" ≠ js "load" := by decide
  refine ⟨?_, ?_, ?_, rfl, ?_, rfl, ?_, ?_⟩
  · by_cases h : action = js "load" <;> simp [request, requestOptions, h]
  · intro h
    cases payload <;> simp_all [JVal.orEmptyObject, JVal.isUndef]
  · simp [loadCourses, request, requestOptions]
  · simp [addCourse, request, requestOptions, hadd, JVal.orEmptyObject]
  · simp [updateCourse, request, requestOptions, hupd, JVal.orEmptyObject]
  · simp [deleteCourse, request, requestOptions, hdel, JVal.orEmptyObject]

/-- Witness for C12: the payload `(x: 1)` is passed on as it is. -/
theorem request_issues_one_call_witness :
    (JVal.obj [(⟨"x", by decide⟩, .num (.fin 1))]).orEmptyObject =
      JVal.obj [(⟨"x", by decide⟩, .num (.fin 1))] :=
  (request_issues_one_call Host.reference CourseAdminApp.apiService errorFetch (js "add")
    (.obj [(⟨"x", by decide⟩, .num (.fin 1))]) (.num (.fin 7)) []).2.1 rfl

end ApiService

end Cpanal

namespace Cpanal

/-! ## Invariants of the data manager -/

namespace CourseDataManager

open scoped List

theorem filterRaising_sublist (p : Course → Option Bool) :
    ∀ (l r : List Course), filterRaising p l = some r → r <+ l
  | [], r, h => by
    simp [filterRaising] at h
    subst h
    exact List.Sublist.refl _
  | c :: rest, r, h => by
    unfold filterRaising at h
    cases hp : p c with
    | none => simp [hp] at h
    | some keep =>
      cases hrest : filterRaising p rest with
      | none => simp [hp, hrest] at h
      | some kept =>
        have ih := filterRaising_sublist p rest kept hrest
        simp [hp, hrest] at h
        subst h
        cases keep
        · simpa using List.Sublist.cons c ih
        · simpa using List.Sublist.cons₂ c ih

theorem filterCourses_some (H : Host) (m m' : CourseDataManager) (t : JsString)
    (r : List Course) (hf : filterCourses H m t = some (m', r)) :
    m'.courses = m.courses ∧ m'.filteredCourses <+ m.courses := by
  unfold filterCourses at hf
  by_cases hterm : (jsTrim (H.toLowerCase t)).isEmpty = true
  · simp [hterm] at hf
    rw [← hf.1]
    exact ⟨rfl, List.Sublist.refl _⟩
  · simp only [hterm] at hf
    cases hfr : filterRaising (matchesTerm H (jsTrim (H.toLowerCase t))) m.courses with
    | none => simp [hfr] at hf
    | some filtered =>
      simp [hfr] at hf
      rw [← hf.1]
      exact ⟨rfl, filterRaising_sublist _ _ _ hfr⟩

theorem afterCall_sublist (H : Host) (m : CourseDataManager) (call : Call)
    (h : m.filteredCourses <+ m.courses) :
    (afterCall H m call).filteredCourses <+ (afterCall H m call).courses := by
  cases call with
  | setCourses coursesData => exact List.Sublist.refl _
  | filterCourses searchTerm =>
    simp only [afterCall]
    cases hf : filterCourses H m searchTerm with
    | none => exact h
    | some res =>
      obtain ⟨m', r⟩ := res
      obtain ⟨hc, hs⟩ := filterCourses_some H m m' searchTerm r hf
      simp only [hc]
      exact hs
  | getAllCourses => exact h
  | getFilteredCourses => exact h
  | findCourseById id => exact h
  | getCoursesCount => exact h

theorem afterCalls_sublist (H : Host) :
    ∀ (calls : List Call) (m : CourseDataManager), m.filteredCourses <+ m.courses →
      (afterCalls H m calls).filteredCourses <+ (afterCalls H m calls).courses
  | [], _, h => h
  | call :: rest, m, h => afterCalls_sublist H rest (afterCall H m call)
      (afterCall_sublist H m call h)

theorem normalizeCourse_id_isStr (H : Host) (c : Course) :
    ∃ s, (normalizeCourse H c).id = .str s :=
  ⟨_, normalizeCourse_id H c⟩

/-- C13 (amended): for every input list, after `setCourses` the id of every
stored record is a string; the stored ids are pairwise different whenever the
normalised ids of the input records (the string form of the id, the empty
string for a missing id) are pairwise different. -/
theorem setCourses_ids_strings (H : Host) (m : CourseDataManager) (data : List Course) :
    (∀ r ∈ (setCourses H m data).courses, ∃ s, r.id = .str s) ∧
    ((data.map (fun c => if c.id.isUndef then [] else JVal.toStr H c.id)).Nodup →
      ((setCourses H m data).courses.map (fun r => JVal.toStr H r.id)).Nodup) := by
  constructor
  · intro r hr
    obtain ⟨c, -, rfl⟩ := List.mem_map.mp ((mem_sortById H _ _).mp hr)
    exact normalizeCourse_id_isStr H c
  · intro hnodup
    have hperm : ((setCourses H m data).courses.map (fun r => JVal.toStr H r.id)).Perm
        ((data.map (normalizeCourse H)).map (fun r => JVal.toStr H r.id)) :=
      (sortById_perm H _).map _
    rw [hperm.nodup_iff, List.map_map]
    have hfun : ((fun r => JVal.toStr H r.id) ∘ normalizeCourse H) =
        (fun c => if c.id.isUndef then [] else JVal.toStr H c.id) := by
      funext c
      simp [normalizeCourse_id, toStr_str]
    rw [hfun]
    exact hnodup

/-- Witness for C13: the list `mixedIdData`, whose normalised ids are `5` and
the empty string. -/
theorem setCourses_ids_strings_witness :
    ((setCourses Host.reference new mixedIdData).courses.map
      (fun r => JVal.toStr Host.reference r.id)).Nodup :=
  (setCourses_ids_strings Host.reference new mixedIdData).2 (by decide)

/-- C13 as stated fails: two input records with id `1` are both stored with
the id "1". -/
theorem setCourses_duplicate_ids_counterexample :
    ¬ ((setCourses Host.reference new duplicateIdData).courses.map
      (fun r => JVal.toStr Host.reference r.id)).Nodup := by
  have h : (setCourses Host.reference new duplicateIdData).courses.map
      (fun r => JVal.toStr Host.reference r.id) = [js "1", js "1"] := by decide!
  rw [h]
  simp

/-- C14: in every state reached from the constructor by a sequence of calls of
`setCourses`, `filterCourses` and the read methods, the filtered list is an
order-preserving sub-sequence of the full list, so `getCoursesCount` reports
filtered at most total; the read methods `getAllCourses`, `getFilteredCourses`,
`findCourseById`, `getCoursesCount` leave the state, and so both lists, as they
are. -/
theorem filtered_sublist_of_courses (H : Host) (calls : List Call) :
    (afterCalls H new calls).filteredCourses <+ (afterCalls H new calls).courses ∧
    (getCoursesCount (afterCalls H new calls)).2 ≤
      (getCoursesCount (afterCalls H new calls)).1 ∧
    (∀ (m : CourseDataManager) (id : JVal),
      afterCall H m .getAllCourses = m ∧ afterCall H m .getFilteredCourses = m ∧
      afterCall H m (.findCourseById id) = m ∧ afterCall H m .getCoursesCount = m) := by
  have h := afterCalls_sublist H calls new (List.Sublist.refl _)
  exact ⟨h, h.length_le, fun _ _ => ⟨rfl, rfl, rfl, rfl⟩⟩

/-- C17: the sort in `setCourses` is stable: for every input list and every
numeric key, the stored records with that key are the normalised input records
with that key, in the order of the input. -/
theorem setCourses_stable (H : Host) (m : CourseDataManager) (data : List Course)
    (k : JsNum) :
    (setCourses H m data).courses.filter (fun r => decide (numericId H r = k)) =
      (data.map (normalizeCourse H)).filter (fun r => decide (numericId H r = k)) := by
  have hsub : (data.map (normalizeCourse H)).filter (fun r => decide (numericId H r = k)) <+
      sortById H (data.map (normalizeCourse H)) := by
    apply List.sublist_insertionSort
    · apply List.pairwise_of_forall_mem_list
      intro a ha b hb
      have hka : numericId H a = k := by simpa using (List.mem_filter.mp ha).2
      have hkb : numericId H b = k := by simpa using (List.mem_filter.mp hb).2
      rw [sortsBefore_iff, hka, hkb]
      have hk : k ≠ .nan := hka ▸ numericId_ne_nan H a
      rcases JsNum.le_or_ge hk hk with h | h <;> exact h
    · exact List.filter_sublist _
  have hsub' : (data.map (normalizeCourse H)).filter (fun r => decide (numericId H r = k)) <+
      (sortById H (data.map (normalizeCourse H))).filter
        (fun r => decide (numericId H r = k)) := by
    have := hsub.filter (fun r => decide (numericId H r = k))
    simpa [List.filter_filter] using this
  have hlen : ((sortById H (data.map (normalizeCourse H))).filter
      (fun r => decide (numericId H r = k))).length =
      ((data.map (normalizeCourse H)).filter (fun r => decide (numericId H r = k))).length :=
    ((sortById_perm H _).filter _).length_eq
  exact (hsub'.eq_of_length hlen.symm).symm

/-- C19, at the failing input: the stored list holds a record whose title is
the number 2024; searching for "2024" raises instead of returning a list. -/
theorem filterCourses_numeric_title_raises :
    (filterCourses Host.reference (setCourses Host.reference new numericTitleData)
      (js "2024")).isNone = true ∧
    (setCourses Host.reference new numericTitleData).courses.map
      (fun c => jsIncludes (UITemplates.createCourseCard Host.reference c)
        (js "<h3 class=\"h6 card-title mt-2\">2024</h3>")) = [true] := by
  constructor <;> decide!

end CourseDataManager

end Cpanal

namespace Cpanal

/-! ## Loading and closing the editor -/

namespace CourseAdminApp

open CourseDataManager

theorem loadCoursesWith_error (H : Host) (app : CourseAdminApp) (error : JsError) :
    loadCoursesWith H app (.error error) =
      ({ app with
          statusEl := UIComponents.updateStatus H (js "Load failed: " ++ error.message)
            "error"
          adminGrid := UITemplates.createErrorState H (.str error.message)
          dataManager := { app.dataManager with isLoading := false } },
        none) := rfl

theorem loadCoursesWith_no_raise (H : Host) (app : CourseAdminApp) (response : Outcome JVal) :
    (loadCoursesWith H app response).2 = none ∧
      (loadCoursesWith H app response).1.dataManager.isLoading = false := by
  unfold loadCoursesWith
  constructor
  · simp only []
    cases htry : (loadCoursesTry H _ response).2 with
    | none => simp [htry]
    | some e => simp [loadCoursesCatch]
  · rfl

theorem loadCoursesTry_not_array (H : Host) (app : CourseAdminApp) (body : JVal)
    (h : body.isArray = false) :
    loadCoursesTry H app (.ok body) = loadCoursesTry H app (.ok (.arr [])) := by
  cases body <;> first | rfl | simp [JVal.isArray] at h

/-- C15: whatever the call of the service settles to (an array body, another
body, a raised error), `loadCourses` raises nothing to its caller and leaves
the loading flag false; this holds for every network.  A body that is not an
array is handled as the empty array: the run is the same, and both lists end
up empty. -/
theorem loadCourses_never_raises (H : Host) (app : CourseAdminApp)
    (response : Outcome JVal) (fetch : HttpRequest → FetchOutcome) :
    (loadCoursesWith H app response).2 = none ∧
    (loadCoursesWith H app response).1.dataManager.isLoading = false ∧
    (loadCourses H app fetch).2 = none ∧
    (loadCourses H app fetch).1.dataManager.isLoading = false ∧
    (∀ body : JVal, body.isArray = false →
      loadCoursesWith H app (.ok body) = loadCoursesWith H app (.ok (.arr [])) ∧
      (loadCoursesWith H app (.ok body)).1.dataManager.courses = [] ∧
      (loadCoursesWith H app (.ok body)).1.dataManager.filteredCourses = []) := by
  refine ⟨(loadCoursesWith_no_raise H app response).1,
    (loadCoursesWith_no_raise H app response).2,
    (loadCoursesWith_no_raise H app _).1, (loadCoursesWith_no_raise H app _).2, ?_⟩
  intro body hbody
  have heq : loadCoursesWith H app (.ok body) = loadCoursesWith H app (.ok (.arr [])) := by
    simp only [loadCoursesWith, loadCoursesTry_not_array H _ body hbody]
  rw [heq]
  exact ⟨rfl, rfl, rfl⟩

/-- Witness for C15: the body `(status: "success")`, an object, leaves the
lists empty. -/
theorem loadCourses_never_raises_witness :
    (loadCoursesWith Host.reference editingApp
      (.ok (.obj [(⟨"status", by decide⟩, .str (js "success"))]))).1.dataManager.courses =
      [] :=
  ((loadCourses_never_raises Host.reference editingApp (.ok .null) offlineFetch).2.2.2.2
    (.obj [(⟨"status", by decide⟩, .str (js "success"))]) rfl).2.1

/-- C16: `handleOffcanvasClose` calls `preventDefault` exactly when the dirty
flag is set, no load is in progress and the user declines the confirmation, and
then leaves the state, dirty flag included, as it is; the confirmation is shown
exactly when the flag is set and no load is in progress; when the user confirms
it, the close is not prevented and the dirty flag is cleared, nothing else
changing; when the flag is not set, there is no confirmation, the close is not
prevented and the state is unchanged. -/
theorem handleOffcanvasClose_guard (app : CourseAdminApp) (userConfirms : Bool) :
    ((handleOffcanvasClose app userConfirms).defaultPrevented = true ↔
      (app.dataManager.isDirty = true ∧ app.dataManager.isLoading = false ∧
        userConfirms = false)) ∧
    ((handleOffcanvasClose app userConfirms).defaultPrevented = true →
      (handleOffcanvasClose app userConfirms).app = app ∧
      (handleOffcanvasClose app userConfirms).app.dataManager.isDirty = true) ∧
    ((handleOffcanvasClose app userConfirms).prompted = true ↔
      (app.dataManager.isDirty = true ∧ app.dataManager.isLoading = false)) ∧
    ((handleOffcanvasClose app userConfirms).prompted = true → userConfirms = true →
      (handleOffcanvasClose app userConfirms).defaultPrevented = false ∧
      (handleOffcanvasClose app userConfirms).app =
        { app with dataManager := { app.dataManager with isDirty := false } }) ∧
    (app.dataManager.isDirty = false →
      (handleOffcanvasClose app userConfirms).prompted = false ∧
      (handleOffcanvasClose app userConfirms).defaultPrevented = false ∧
      (handleOffcanvasClose app userConfirms).app = app) := by
  unfold handleOffcanvasClose CourseDataManager.getDirty CourseDataManager.getLoading
    CourseDataManager.setDirty
  cases hd : app.dataManager.isDirty <;> cases hl : app.dataManager.isLoading <;>
    cases userConfirms <;> simp [hd, hl]

/-- Witness for C16: an edit is pending, no load is in progress and the user
declines. -/
theorem handleOffcanvasClose_guard_witness :
    (handleOffcanvasClose editingApp false).app = editingApp ∧
    (handleOffcanvasClose editingApp false).app.dataManager.isDirty = true :=
  (handleOffcanvasClose_guard editingApp false).2.1 rfl

/-- C20: when the call of the service raises, `loadCourses` leaves the full
list, the filtered list and the dirty flag as they were; the loading flag ends
false, the status line shows the failure, the grid shows the error markup, and
nothing is raised to the caller.  In particular this holds for every network on
which the call of the service raises. -/
theorem loadCourses_failure_keeps_lists (H : Host) (app : CourseAdminApp)
    (error : JsError) (fetch : HttpRequest → FetchOutcome) :
    (loadCoursesWith H app (.error error)).1.dataManager.courses = app.dataManager.courses ∧
    (loadCoursesWith H app (.error error)).1.dataManager.filteredCourses =
      app.dataManager.filteredCourses ∧
    (loadCoursesWith H app (.error error)).1.dataManager.isDirty = app.dataManager.isDirty ∧
    (loadCoursesWith H app (.error error)).1.dataManager.isLoading = false ∧
    (loadCoursesWith H app (.error error)).1.statusEl =
      UIComponents.updateStatus H (js "Load failed: " ++ error.message) "error" ∧
    (loadCoursesWith H app (.error error)).1.adminGrid =
      UITemplates.createErrorState H (.str error.message) ∧
    (loadCoursesWith H app (.error error)).2 = none ∧
    ((apiService.loadCourses H fetch).result = .error error →
      (loadCourses H app fetch).1.dataManager.courses = app.dataManager.courses ∧
      (loadCourses H app fetch).1.dataManager.filteredCourses =
        app.dataManager.filteredCourses) := by
  refine ⟨rfl, rfl, rfl, rfl, rfl, rfl, rfl, ?_⟩
  intro h
  unfold loadCourses
  rw [h]
  exact ⟨rfl, rfl⟩

/-- Witness for C20: the page `editingApp` on a network on which every call
fails keeps its one record. -/
theorem loadCourses_failure_keeps_lists_witness :
    (loadCourses Host.reference editingApp offlineFetch).1.dataManager.courses =
      editingApp.dataManager.courses ∧
    (loadCourses Host.reference editingApp offlineFetch).1.dataManager.filteredCourses =
      editingApp.dataManager.filteredCourses :=
  (loadCourses_failure_keeps_lists Host.reference editingApp
    ⟨js "Connection failed: Failed to fetch"⟩ offlineFetch).2.2.2.2.2.2.2 rfl

end CourseAdminApp

namespace UITemplates

/-- C18, at the failing input: for the description of 79 letters `a` followed
by an ampersand, the escaped text has 84 code units and is cut after the 80th,
inside the entity: the card shows the letters, a bare ampersand and the
ellipsis. -/
theorem createCourseCard_cuts_entity :
    jsIncludes (createCourseCard Host.reference cutEntityData)
      (js "<p class=\"small text-muted flex-grow-1\">" ++ List.replicate 79 97 ++
        js "&…</p>") = true ∧
    escapeHtml Host.reference cutEntityData.description =
      List.replicate 79 97 ++ js "&amp;" := by
  constructor <;> decide!

end UITemplates

end Cpanal

namespace Cpanal

/-! ## Trimming and splitting -/

theorem jsTrim_eq_rdropWhile (s : JsString) :
    jsTrim s = (s.dropWhile isJsWhiteSpace).rdropWhile isJsWhiteSpace := rfl

theorem jsTrim_cons_whiteSpace (a : Nat) (s : JsString) (ha : isJsWhiteSpace a = true) :
    jsTrim (a :: s) = jsTrim s := by
  simp [jsTrim, List.dropWhile_cons_of_pos ha]

theorem hasNoOuterWhiteSpace_jsTrim (s : JsString) :
    hasNoOuterWhiteSpace (jsTrim s) = true := by
  have hprefix : jsTrim s <+: s.dropWhile isJsWhiteSpace := by
    rw [jsTrim_eq_rdropWhile]
    exact List.rdropWhile_prefix _ _
  have hhead : ∀ u, (jsTrim s).head? = some u → isJsWhiteSpace u = false := by
    intro u hu
    obtain ⟨t, ht⟩ := hprefix
    cases hj : jsTrim s with
    | nil => simp [hj] at hu
    | cons a r =>
      rw [hj] at hu ht
      simp at hu
      subst hu
      have hnot := List.head?_dropWhile_not isJsWhiteSpace s
      rw [← ht] at hnot
      simpa using hnot
  have hlast : ∀ u, (jsTrim s).getLast? = some u → isJsWhiteSpace u = false := by
    intro u hu
    have hne : jsTrim s ≠ [] := by
      intro h
      simp [h] at hu
    have hnot := List.rdropWhile_last_not isJsWhiteSpace (s.dropWhile isJsWhiteSpace)
      (by rw [← jsTrim_eq_rdropWhile]; exact hne)
    have hu' : (jsTrim s).getLast hne = u := by
      rw [List.getLast?_eq_getLast _ hne] at hu
      exact Option.some.inj hu
    rw [← hu']
    simpa [jsTrim_eq_rdropWhile] using hnot
  unfold hasNoOuterWhiteSpace
  cases hh : (jsTrim s).head? with
  | none =>
    cases hl : (jsTrim s).getLast? with
    | none => rfl
    | some v => simp [hlast v hl]
  | some u =>
    cases hl : (jsTrim s).getLast? with
    | none => simp [hhead u hh]
    | some v => simp [hhead u hh, hlast v hl]

theorem jsTrim_of_hasNoOuterWhiteSpace (s : JsString)
    (h : hasNoOuterWhiteSpace s = true) : jsTrim s = s := by
  cases s with
  | nil => rfl
  | cons a r =>
    unfold hasNoOuterWhiteSpace at h
    have ha : isJsWhiteSpace a = false := by
      simp at h
      exact h.1
    have hdrop : (a :: r).dropWhile isJsWhiteSpace = a :: r := by
      simp [List.dropWhile_cons, ha]
    rw [jsTrim_eq_rdropWhile, hdrop, List.rdropWhile_eq_self_iff]
    intro hl
    have hlast : (a :: r).getLast? = some ((a :: r).getLast hl) :=
      List.getLast?_eq_getLast _ hl
    rw [hlast] at h
    simp at h
    simpa using h.2

theorem jsSplit_append (isSep : Nat → Bool) (s r p : JsString) (ps : List JsString)
    (hs : ∀ u ∈ s, isSep u = false) (hr : jsSplit isSep r = p :: ps) :
    jsSplit isSep (s ++ r) = (s ++ p) :: ps := by
  induction s with
  | nil => simpa using hr
  | cons a t ih =>
    have ha : isSep a = false := hs a (List.mem_cons_self _ _)
    have ht := ih (fun u hu => hs u (List.mem_cons_of_mem _ hu))
    simp [jsSplit, ha, ht]

theorem jsSplit_cons_sep (isSep : Nat → Bool) (u : Nat) (rest : JsString)
    (hu : isSep u = true) : jsSplit isSep (u :: rest) = [] :: jsSplit isSep rest := by
  simp [jsSplit, hu]

theorem joinStrings_cons_cons (sep s t : JsString) (rest : List JsString) :
    joinStrings sep (s :: t :: rest) = s ++ sep ++ joinStrings sep (t :: rest) := by
  simp [joinStrings]

theorem joinStrings_ne_nil (sep t : JsString) (rest : List JsString) (ht : t ≠ []) :
    joinStrings sep (t :: rest) ≠ [] := by
  cases rest with
  | nil => simpa [joinStrings] using ht
  | cons t' rest' =>
    rw [joinStrings_cons_cons]
    simp [ht]

namespace JVal

theorem itemStrings_map_str (H : Host) (tags : List JsString) :
    itemStrings H (tags.map JVal.str) = tags := by
  induction tags with
  | nil => simp [itemStrings]
  | cons t rest ih => simp [itemStrings, ih, toStr_str]

end JVal

namespace CourseAdminApp

/-- Splitting the joined text of tags that hold no separator gives the first
tag and every later tag with the space of the `", "` in front. -/
theorem jsSplit_joined (t : JsString) (rest : List JsString)
    (h : ∀ x ∈ t :: rest, ∀ u ∈ x, isTagSeparator u = false) :
    jsSplit isTagSeparator (joinStrings (js ", ") (t :: rest)) =
      t :: rest.map (fun x => 32 :: x) := by
  induction rest generalizing t with
  | nil =>
    have := jsSplit_append isTagSeparator t [] [] [] (h t (List.mem_cons_self _ _)) rfl
    simpa [joinStrings] using this
  | cons t' rest' ih =>
    have ih' := ih t' (fun x hx => h x (List.mem_cons_of_mem _ hx))
    have hsep : js ", " = [44, 32] := by decide
    have h32 : jsSplit isTagSeparator ([32] ++ joinStrings (js ", ") (t' :: rest')) =
        ([32] ++ t') :: rest'.map (fun x => 32 :: x) :=
      jsSplit_append isTagSeparator [32] _ _ _ (by simp [isTagSeparator]) ih'
    have h44 : jsSplit isTagSeparator
        (44 :: ([32] ++ joinStrings (js ", ") (t' :: rest'))) =
        [] :: (([32] ++ t') :: rest'.map (fun x => 32 :: x)) := by
      rw [jsSplit_cons_sep isTagSeparator 44 _ (by decide), h32]
    have := jsSplit_append isTagSeparator t _ _ _ (h t (List.mem_cons_self _ _)) h44
    rw [joinStrings_cons_cons, hsep]
    simpa using this

theorem hasNoOuterWhiteSpace_joined (t : JsString) (rest : List JsString)
    (h : ∀ x ∈ t :: rest, x ≠ [] ∧ hasNoOuterWhiteSpace x = true) :
    hasNoOuterWhiteSpace (joinStrings (js ", ") (t :: rest)) = true := by
  induction rest generalizing t with
  | nil => simpa [joinStrings] using (h t (List.mem_cons_self _ _)).2
  | cons t' rest' ih =>
    have ht := h t (List.mem_cons_self _ _)
    have ih' := ih t' (fun x hx => h x (List.mem_cons_of_mem _ hx))
    have hne' : joinStrings (js ", ") (t' :: rest') ≠ [] :=
      joinStrings_ne_nil _ _ _ (h t' (by simp)).1
    rw [joinStrings_cons_cons]
    unfold hasNoOuterWhiteSpace at ih' ht ⊢
    obtain ⟨a, r, rfl⟩ := List.exists_cons_of_ne_nil ht.1
    have hlast : (a :: r ++ js ", " ++ joinStrings (js ", ") (t' :: rest')).getLast? =
        (joinStrings (js ", ") (t' :: rest')).getLast? := by
      rw [List.getLast?_append_of_ne_nil _ hne']
    rw [hlast]
    simp only [List.cons_append, List.head?_cons] at ht ⊢
    simp only [Bool.and_eq_true] at ih' ht ⊢
    exact ⟨ht.2.1, ih'.2⟩

/-- C21: for every list of tags in which each tag is non-empty, has no leading
or trailing white space and contains neither a comma nor an Arabic comma, the
text that `populateEditor` writes to the tags field, the tags joined by `", "`,
is parsed by `collectEditorData` back into the same list; and for every value
of the tags field, every parsed tag is non-empty and has no leading or trailing
white space. -/
theorem tags_round_trip (H : Host) (tags : List JsString) (old : JsString)
    (value : Option JsString)
    (hTags : ∀ t ∈ tags, t ≠ [] ∧ hasNoOuterWhiteSpace t = true ∧
      ∀ u ∈ t, isTagSeparator u = false) :
    populateEditorTags H (some old) (.arr (tags.map JVal.str)) =
      some (joinStrings (js ", ") tags) ∧
    collectEditorDataTags (populateEditorTags H (some old) (.arr (tags.map JVal.str))) =
      tags ∧
    ∀ p ∈ collectEditorDataTags value, p ≠ [] ∧ hasNoOuterWhiteSpace p = true := by
  have hpop : populateEditorTags H (some old) (.arr (tags.map JVal.str)) =
      some (joinStrings (js ", ") tags) := by
    simp [populateEditorTags, JVal.join, JVal.itemStrings_map_str]
  refine ⟨hpop, ?_, ?_⟩
  · rw [hpop]
    cases tags with
    | nil => rfl
    | cons t rest =>
      have hclean : hasNoOuterWhiteSpace (joinStrings (js ", ") (t :: rest)) = true :=
        hasNoOuterWhiteSpace_joined t rest (fun x hx => ⟨(hTags x hx).1, (hTags x hx).2.1⟩)
      have hne : joinStrings (js ", ") (t :: rest) ≠ [] :=
        joinStrings_ne_nil _ _ _ (hTags t (List.mem_cons_self _ _)).1
      have htrim := jsTrim_of_hasNoOuterWhiteSpace _ hclean
      have hsplit := jsSplit_joined t rest (fun x hx => (hTags x hx).2.2)
      have hmap : (t :: rest.map (fun x => 32 :: x)).map jsTrim = t :: rest := by
        simp only [List.map_cons, List.map_map]
        rw [jsTrim_of_hasNoOuterWhiteSpace t (hTags t (List.mem_cons_self _ _)).2.1]
        congr 1
        have : ∀ x ∈ rest, (jsTrim ∘ fun x => 32 :: x) x = x := by
          intro x hx
          simp only [Function.comp]
          rw [jsTrim_cons_whiteSpace 32 x (by decide)]
          exact jsTrim_of_hasNoOuterWhiteSpace x (hTags x (List.mem_cons_of_mem _ hx)).2.1
        calc rest.map (jsTrim ∘ fun x => 32 :: x) = rest.map id :=
              List.map_congr_left this
          _ = rest := List.map_id _
      have hfilter : (t :: rest).filter (fun x => !x.isEmpty) = t :: rest := by
        apply List.filter_eq_self.mpr
        intro x hx
        have := (hTags x hx).1
        cases x with
        | nil => exact absurd rfl this
        | cons a r => rfl
      have hempty : (joinStrings (js ", ") (t :: rest)).isEmpty = false := by
        cases hj : joinStrings (js ", ") (t :: rest) with
        | nil => exact absurd hj hne
        | cons a r => rfl
      simp only [collectEditorDataTags, htrim, hempty, hsplit, hmap, hfilter]
      rfl
  · intro p hp
    unfold collectEditorDataTags at hp
    simp only [] at hp
    split at hp
    · obtain ⟨hmem, hnonempty⟩ := List.mem_filter.mp hp
      obtain ⟨piece, -, rfl⟩ := List.mem_map.mp hmem
      refine ⟨?_, hasNoOuterWhiteSpace_jsTrim piece⟩
      intro h
      rw [h] at hnonempty
      simp at hnonempty
    · simp at hp

/-- Witness for C21: the tags `web dev` and `css`. -/
theorem tags_round_trip_witness :
    collectEditorDataTags (populateEditorTags Host.reference (some [])
      (.arr (exampleTags.map JVal.str))) = exampleTags :=
  (tags_round_trip Host.reference exampleTags [] none (by decide)).2.1

end CourseAdminApp

end Cpanal
